import Mathlib

/-!
# Verification of the Phonosyne DSP core

Shallow embedding of the Phonosyne DSP library (effects, mastering chain,
WAV validator and the multi-feedback network) and proofs of the spec's
claims about it.

Conventions used throughout:
* Python floats are idealised as exact rationals (`ℚ`) wherever the source
  only uses field operations and comparisons, and as reals (`ℝ`) where the
  source calls transcendental routines (`exp`, `log10`, `tanh`, `sin`).
* A Python function that can `raise` is embedded as a function into
  `Except PyError _`.
* NumPy 1-D arrays are embedded as `List`s; the embeddings cover the mono
  (1-D) code paths of the effects, which is the shape every claim is about.
-/

/-- The Python exception kinds raised by the embedded code. -/
inductive PyError where
  | valueError (msg : String)
  | attributeError (msg : String)
  | typeError (msg : String)
  | notImplementedError (msg : String)
  | fileNotFoundError (msg : String)
  | validationFailedError (msg : String)
deriving Repr, DecidableEq

deriving instance DecidableEq for Except

namespace Phonosyne

/-! ## Global settings (src/phonosyne/settings.py) -/

namespace settings

/-- `DEFAULT_SR: int = 48_000`. -/
def DEFAULT_SR : ℤ := 48000

/-- `TARGET_PEAK_DBFS: float = -0.1`. -/
def TARGET_PEAK_DBFS : ℚ := -1/10

/-- `DURATION_TOLERANCE_S: float = 2`. -/
def DURATION_TOLERANCE_S : ℚ := 2

/-- `SILENCE_THRESHOLD_LINEAR: float = 10 ** (-100 / 20)`, i.e. `10⁻⁵`. -/
def SILENCE_THRESHOLD_LINEAR : ℚ := 1/100000

end settings

/-! ## Shared NumPy/Python primitives -/

/-- Python `int(x)`: truncation toward zero. -/
def pyInt (x : ℚ) : ℤ := if 0 ≤ x then ⌊x⌋ else -⌊-x⌋

/-- `np.clip(x, lo, hi)`, which NumPy evaluates as `min(hi, max(lo, x))`. -/
def npClip (x lo hi : ℚ) : ℚ := min hi (max lo x)

/-- `np.roll(b, 1)`: rotate a 1-D array one slot to the right. -/
def npRoll1 (b : List ℚ) : List ℚ :=
  match b.getLast? with
  | none => []
  | some last => last :: b.dropLast

/-! ## Delay effect (src/phonosyne/dsp/effects/delay.py)

`apply_delay` validates `feedback ∈ [0, 1)` and `mix ∈ [0, 1]`, converts the
delay time to samples with `int(delay_time_s * settings.DEFAULT_SR)`, and runs
a per-sample loop over a `delay_samples`-long buffer: read `delay_buffer[-1]`,
mix it with the dry sample, write `input + delayed * feedback` back at the
front after `np.roll(buffer, 1)`.  The mono (1-D) path is embedded; note that
the source applies no output clipping in this effect. -/

/-- One iteration of the mono loop body of `apply_delay`:
returns the output sample and the updated delay buffer. -/
def delayStep (feedback mix : ℚ) (buf : List ℚ) (x : ℚ) : ℚ × List ℚ :=
  let delayed := (buf.getLast?).getD 0
  let output_sample := x * (1 - mix) + delayed * mix
  let new_buffer_input := x + delayed * feedback
  let rolled := npRoll1 buf
  (output_sample, rolled.set 0 new_buffer_input)

/-- The mono `for i in range(len(audio_data))` loop of `apply_delay`. -/
def delayLoop (feedback mix : ℚ) (buf : List ℚ) : List ℚ → List ℚ
  | [] => []
  | x :: xs =>
    let step := delayStep feedback mix buf x
    step.1 :: delayLoop feedback mix step.2 xs

/-- `apply_delay(audio_data, delay_time_s, feedback=0.3, mix=0.5)`, mono path. -/
def apply_delay (audio_data : List ℚ) (delay_time_s feedback mix : ℚ) :
    Except PyError (List ℚ) :=
  if ¬ (0 ≤ feedback ∧ feedback < 1) then
    .error (.valueError "Feedback must be between 0.0 and just under 1.0.")
  else if ¬ (0 ≤ mix ∧ mix ≤ 1) then
    .error (.valueError "Mix must be between 0.0 and 1.0.")
  else
    let delay_samples := pyInt (delay_time_s * (settings.DEFAULT_SR : ℚ))
    if delay_samples ≤ 0 then
      -- `audio_data * (1 - mix) + processed_audio * mix` with `processed_audio`
      -- a fresh copy of `audio_data`
      .ok (audio_data.map fun x => x * (1 - mix) + x * mix)
    else
      .ok (delayLoop feedback mix (List.replicate delay_samples.toNat 0) audio_data)

/-! ## Distortion effect (src/phonosyne/dsp/effects/distortion.py)

Hard-clipping distortion: validate `drive, mix ∈ [0, 1]`, pre-gain
`1 + drive * 9`, hard clip at `±0.8`, wet/dry mix, and — for floating-point
input, the case embedded here — a final `np.clip(processed, -1.0, 1.0)` at
the exit point.  Returns `(buffer, sample_rate)`. -/

/-- `apply_distortion(audio_data, sample_rate, drive=0.5, mix=1.0)`,
floating-point input path. -/
def apply_distortion (audio_data : List ℚ) (sample_rate : ℤ) (drive mix : ℚ) :
    Except PyError (List ℚ × ℤ) :=
  if ¬ (0 ≤ drive ∧ drive ≤ 1) then
    .error (.valueError "Drive must be between 0.0 and 1.0.")
  else if ¬ (0 ≤ mix ∧ mix ≤ 1) then
    .error (.valueError "Mix must be between 0.0 and 1.0.")
  else if audio_data.isEmpty then
    .ok (audio_data, sample_rate)
  else
    let gain := 1 + drive * 9
    let threshold : ℚ := 8/10
    let driven_audio := audio_data.map fun x => x * gain
    let clipped_audio := driven_audio.map fun x => npClip x (-threshold) threshold
    let processed_audio :=
      List.zipWith (fun x c => x * (1 - mix) + c * mix) audio_data clipped_audio
    .ok (processed_audio.map fun x => npClip x (-1) 1, sample_rate)

/-! ## Multi-feedback network (src/phonosyne/dsp/effects/feedback_network.py)

The dataclasses `MFNNode`, `MFNConnection` and `MFNGraph` are embedded with
their `__post_init__` validation as smart constructors.

`apply_feedback_network` itself is embedded by its observable behaviour:

* an empty node list returns a copy of the input unchanged (lines 581-583);
* for ANY non-empty node list, the node set-up loop evaluates
  `node.max_delay_s` (line 595) — but the `MFNNode` dataclass defined in the
  same module only has fields `id`, `delay_samples` and `gain`, so Python
  raises `AttributeError` before either the NumPy or the Numba kernel can
  run, whatever the value of `use_numba`.  (The kernels are additionally
  unreachable because the NumPy call site at lines 717-724 passes
  `(input, graph, delay_lines, write_pos, block_size, sample_rate)` to a
  kernel whose signature is
  `(input, graph, node_defs_map, delay_lines, write_pos, block_size)`.)
-/

/-- The `MFNNode` dataclass: fields `id`, `delay_samples = 0`, `gain = 1.0`. -/
structure MFNNode where
  id : String
  delay_samples : ℤ
  gain : ℚ
deriving Repr, DecidableEq

/-- `MFNNode.__post_init__`: `delay_samples ≥ 0` and a non-empty (after
stripping) id string. -/
def mkMFNNode (id : String) (delay_samples : ℤ) (gain : ℚ) :
    Except PyError MFNNode :=
  if delay_samples < 0 then
    .error (.valueError "Node delay_samples cannot be negative.")
  else if id.trim = "" then
    .error (.valueError "Node id must be a non-empty string.")
  else
    .ok ⟨id, delay_samples, gain⟩

/-- The `MFNConnection` dataclass: fields `source_id`, `target_id`,
`gain = 1.0`, `delay_samples = 0`. -/
structure MFNConnection where
  source_id : String
  target_id : String
  gain : ℚ
  delay_samples : ℤ
deriving Repr, DecidableEq

/-- `MFNConnection.__post_init__` validation. -/
def mkMFNConnection (source_id target_id : String) (gain : ℚ)
    (delay_samples : ℤ) : Except PyError MFNConnection :=
  if delay_samples < 0 then
    .error (.valueError "Connection delay_samples cannot be negative.")
  else if source_id.trim = "" then
    .error (.valueError "Connection source_id must be a non-empty string.")
  else if target_id.trim = "" then
    .error (.valueError "Connection target_id must be a non-empty string.")
  else
    .ok ⟨source_id, target_id, gain, delay_samples⟩

/-- The `MFNGraph` dataclass. -/
structure MFNGraph where
  nodes : List MFNNode
  connections : List MFNConnection
  input_gain : ℚ
  output_gain : ℚ
  max_delay_samples : Option ℤ
  chaos_level : ℚ
deriving Repr, DecidableEq

/-- `MFNGraph.__post_init__`: `chaos_level ∈ [0, 1]`, unique node ids, every
connection endpoint present in the node set, and `max_delay_samples` either
non-negative or computed as the maximum declared delay. -/
def mkMFNGraph (nodes : List MFNNode) (connections : List MFNConnection)
    (input_gain output_gain : ℚ) (max_delay_samples : Option ℤ)
    (chaos_level : ℚ) : Except PyError MFNGraph :=
  if ¬ (0 ≤ chaos_level ∧ chaos_level ≤ 1) then
    .error (.valueError "chaos_level must be between 0.0 and 1.0.")
  else if ((nodes.map (·.id)).dedup).length ≠ nodes.length then
    -- `len({node.id for node in self.nodes}) != len(self.nodes)`
    .error (.valueError "Duplicate node IDs found in the graph.")
  else if ¬ connections.all
      (fun c => nodes.any (fun n => n.id = c.source_id)) then
    .error (.valueError "Connection source_id not found in nodes.")
  else if ¬ connections.all
      (fun c => nodes.any (fun n => n.id = c.target_id)) then
    .error (.valueError "Connection target_id not found in nodes.")
  else
    match max_delay_samples with
    | some m =>
      if m < 0 then
        .error (.valueError "max_delay_samples cannot be negative if specified.")
      else
        .ok ⟨nodes, connections, input_gain, output_gain, some m, chaos_level⟩
    | none =>
      let fromNodes := nodes.foldl (fun acc n => max acc n.delay_samples) 0
      let computed := connections.foldl (fun acc c => max acc c.delay_samples) fromNodes
      .ok ⟨nodes, connections, input_gain, output_gain, some computed, chaos_level⟩

/-- `apply_feedback_network(audio_data, graph, sample_rate, block_size=256,
use_numba=True, ...)`, embedded by observable behaviour (see the section
comment): empty graphs return `audio_data.copy()`; non-empty graphs raise
`AttributeError` at `node.max_delay_s` (line 595) before any processing,
under both the Numba and the NumPy kernel selection. -/
def apply_feedback_network (audio_data : List ℚ) (graph : MFNGraph)
    (sample_rate : ℤ) (block_size : ℤ) (use_numba : Bool)
    (enable_rms_watchdog : Bool) : Except PyError (List ℚ) :=
  if graph.nodes.isEmpty then
    .ok audio_data
  else
    .error (.attributeError "MFNNode object has no attribute max_delay_s")

/-! ## Real-valued primitives

The remaining effects call transcendental routines (`exp`, `log10`, `tanh`,
`sin`), so their buffers are embedded as lists of reals. -/

noncomputable section
open Classical

/-- Python `int(x)` on a real: truncation toward zero. -/
def pyIntR (x : ℝ) : ℤ := if 0 ≤ x then ⌊x⌋ else -⌊-x⌋

/-- `np.sign` on a real scalar. -/
def npSign (x : ℝ) : ℝ := if 0 < x then 1 else if x < 0 then -1 else 0

/-- `np.mod(a, m)` (with the sign convention of the divisor, as NumPy). -/
def npMod (a m : ℝ) : ℝ := a - m * ⌊a / m⌋

/-- The value `np.max(np.abs(y))` takes on a NON-EMPTY 1-D array.  On an
empty array `np.max` raises `ValueError`, and every embedded call site
models that explicitly: the validator's peak and silence checks catch it
and append an error-report message (`peakErrors`, `silenceErrors`), and
`normalize` propagates it.  The empty case is given the junk value `0`
here; no definition relies on it. -/
def npMaxAbs (y : List ℝ) : ℝ := (y.map (|·|)).foldl max 0

/-! ## Tremolo effect (src/phonosyne/dsp/effects/tremolo.py)

Pure amplitude modulation driven by a 0..1 LFO of shape sine, triangle or
square; gain envelope `(1 - depth) + depth * lfo`.  The mono path is
embedded; the LFO time base is `t = n / settings.DEFAULT_SR`. -/

/-- The 0..1 LFO sample of `apply_tremolo` at time `t`, by shape; `none` for
an unknown shape (which the source turns into a `ValueError`). -/
def tremoloLFO (lfo_shape : String) (rate_hz t : ℝ) : Option ℝ :=
  if lfo_shape = "sine" then
    some ((Real.sin (2 * Real.pi * rate_hz * t) + 1) / 2)
  else if lfo_shape = "triangle" then
    -- `lfo_base = np.abs(np.mod(2 * rate_hz * t - 0.5, 2) - 1) * 2 - 1`
    let lfo_base := |npMod (2 * rate_hz * t - 1/2) 2 - 1| * 2 - 1
    some ((lfo_base + 1) / 2)
  else if lfo_shape = "square" then
    some ((npSign (Real.sin (2 * Real.pi * rate_hz * t)) + 1) / 2)
  else
    none

/-- `apply_tremolo(audio_data, rate_hz=5.0, depth=0.8, lfo_shape="sine",
stereo_phase_deg=0.0)`, mono path. -/
def apply_tremolo (audio_data : List ℝ) (rate_hz depth : ℝ)
    (lfo_shape : String) (stereo_phase_deg : ℝ) : Except PyError (List ℝ) :=
  if ¬ (0 ≤ depth ∧ depth ≤ 1) then
    .error (.valueError "Depth must be between 0.0 and 1.0.")
  else if ¬ (0 ≤ stereo_phase_deg ∧ stereo_phase_deg ≤ 180) then
    .error (.valueError "Stereo phase must be between 0.0 and 180.0 degrees.")
  else if lfo_shape ≠ "sine" ∧ lfo_shape ≠ "triangle" ∧ lfo_shape ≠ "square" then
    .error (.valueError ("Unknown LFO shape: " ++ lfo_shape ++
      ". Choose sine, triangle, or square."))
  else
    .ok <| audio_data.enum.map fun p =>
      let t := (p.1 : ℝ) / (settings.DEFAULT_SR : ℝ)
      let lfo := (tremoloLFO lfo_shape rate_hz t).getD 0
      let gain_mod := (1 - depth) + depth * lfo
      p.2 * gain_mod

/-! ## Compressor (src/phonosyne/dsp/effects/compressor.py)

Per-sample peak-envelope compressor.  The mutable `_envelope` attribute is
threaded explicitly through `processSample`/`processBlock`. -/

/-- The derived fields that `Compressor.__init__` computes and stores. -/
structure Compressor where
  threshold_lin : ℝ
  ratio : ℝ
  attack_coeff : ℝ
  release_coeff : ℝ
  makeup_gain_lin : ℝ
  knee_width_lin : ℝ
  knee_db : ℝ

/-- `Compressor.__init__(threshold_db=-20, ratio=4, attack_ms=5,
release_ms=50, makeup_gain_db=0, knee_db=0)`.  Note the coefficient formula:
`exp(-1 / (ms / 1000 * settings.DEFAULT_SR))` guarded by `ms > 0`, with no
flooring of the time at one sample. -/
def mkCompressor (threshold_db ratio attack_ms release_ms makeup_gain_db
    knee_db : ℝ) : Compressor where
  threshold_lin := (10 : ℝ) ^ (threshold_db / 20)
  ratio := ratio
  attack_coeff :=
    if attack_ms > 0 then
      Real.exp (-1 / (attack_ms / 1000 * (settings.DEFAULT_SR : ℝ)))
    else 0
  release_coeff :=
    if release_ms > 0 then
      Real.exp (-1 / (release_ms / 1000 * (settings.DEFAULT_SR : ℝ)))
    else 0
  makeup_gain_lin := (10 : ℝ) ^ (makeup_gain_db / 20)
  knee_width_lin := (10 : ℝ) ^ (knee_db / 20)
  knee_db := knee_db

/-- `Compressor._calculate_gain_reduction(level_db)`.  (The source also
computes two intermediate values, `over_knee_start` and
`gain_reduction_at_knee_end`, that it never uses; they are omitted.) -/
def calculateGainReduction (c : Compressor) (level_db : ℝ) : ℝ :=
  let threshold_db := 20 * Real.logb 10 c.threshold_lin
  if c.knee_db ≤ 0 ∨ level_db < threshold_db - c.knee_db / 2 then
    if level_db ≤ threshold_db then 0
    else (threshold_db - level_db) * (1 - 1 / c.ratio)
  else if level_db ≤ threshold_db + c.knee_db / 2 then
    let knee_factor := (level_db - (threshold_db - c.knee_db / 2)) / c.knee_db
    let effective_ratio := 1 + knee_factor * (c.ratio - 1)
    if effective_ratio ≤ 1 then 0
    else (threshold_db - c.knee_db / 2 - level_db) * (1 - 1 / effective_ratio)
  else
    (threshold_db - level_db) * (1 - 1 / c.ratio)

/-- `Compressor.process_sample`: envelope update, gain computation, gain and
makeup application.  Returns `(output_sample, new_envelope)`. -/
def Compressor.processSample (c : Compressor) (envelope sample : ℝ) : ℝ × ℝ :=
  let input_level_lin := |sample|
  let env2 :=
    if input_level_lin > envelope then
      c.attack_coeff * envelope + (1 - c.attack_coeff) * input_level_lin
    else
      c.release_coeff * envelope + (1 - c.release_coeff) * input_level_lin
  let gain_reduction_db :=
    if env2 < 1e-9 then 0
    else calculateGainReduction c (20 * Real.logb 10 env2)
  let gain_lin := (10 : ℝ) ^ (gain_reduction_db / 20)
  (sample * gain_lin * c.makeup_gain_lin, env2)

/-- `Compressor.process_block`, mono path: the per-sample loop with the
envelope threaded through. -/
def Compressor.processBlock (c : Compressor) (envelope : ℝ) :
    List ℝ → List ℝ
  | [] => []
  | x :: xs =>
    let r := c.processSample envelope x
    r.1 :: c.processBlock r.2 xs

/-- `apply_compressor(audio_data, ...)`, mono floating-point path: build a
fresh `Compressor` (envelope `0.0`) and process the block. -/
def apply_compressor (audio_data : List ℝ) (threshold_db ratio attack_ms
    release_ms makeup_gain_db knee_db : ℝ) : List ℝ :=
  (mkCompressor threshold_db ratio attack_ms release_ms makeup_gain_db
    knee_db).processBlock 0 audio_data

/-! ## Noise gate (src/phonosyne/dsp/effects/noise_gate.py)

A closed → attack → hold → release state machine; the applied gain is
clamped with `np.clip(gain, attenuation_lin, 1.0)` at every sample. -/

/-- The `_state` attribute values. -/
inductive GateState where
  | closed
  | attack
  | hold
  | release
deriving Repr, DecidableEq

/-- The static fields that `NoiseGate.__init__` computes and stores. -/
structure NoiseGate where
  sample_rate : ℤ
  threshold_lin : ℝ
  attack_samples : ℤ
  hold_samples : ℤ
  release_samples : ℤ
  attenuation_lin : ℝ
  env_attack_coeff : ℝ
  env_release_coeff : ℝ

/-- `NoiseGate.__init__(sample_rate, threshold_db=-50, attack_ms=1,
hold_ms=10, release_ms=20, attenuation_db=-96)`. -/
def mkNoiseGate (sample_rate : ℤ) (threshold_db attack_ms hold_ms release_ms
    attenuation_db : ℝ) : NoiseGate :=
  let attack_samples := pyIntR (attack_ms / 1000 * (sample_rate : ℝ))
  let release_samples := pyIntR (release_ms / 1000 * (sample_rate : ℝ))
  { sample_rate := sample_rate
    threshold_lin := (10 : ℝ) ^ (threshold_db / 20)
    attack_samples := attack_samples
    hold_samples := pyIntR (hold_ms / 1000 * (sample_rate : ℝ))
    release_samples := release_samples
    attenuation_lin := (10 : ℝ) ^ (attenuation_db / 20)
    env_attack_coeff := Real.exp (-1 / ((max 1 attack_samples : ℤ) * (1/2) : ℝ))
    env_release_coeff := Real.exp (-1 / ((max 1 release_samples : ℤ) * (1/2) : ℝ)) }

/-- The mutable per-call state of a `NoiseGate`. -/
structure GateSt where
  envelope : ℝ
  gain : ℝ
  state : GateState
  samples_in_state : ℤ

/-- The state-machine step of `NoiseGate.process_sample`, after the envelope
has been updated: everything between the `if current_state == "closed"`
dispatch and the final clamp. -/
def gateMachineStep (g : NoiseGate) (env : ℝ) (st : GateSt) : GateSt :=
  match st.state with
  | .closed =>
    if env > g.threshold_lin then
      { envelope := env, gain := g.attenuation_lin, state := .attack,
        samples_in_state := 0 }
    else
      { envelope := env, gain := g.attenuation_lin, state := .closed,
        samples_in_state := st.samples_in_state }
  | .attack =>
    let n := st.samples_in_state + 1
    let gain1 :=
      if g.attack_samples > 0 then
        g.attenuation_lin + (1 - g.attenuation_lin) *
          ((n : ℝ) / (g.attack_samples : ℝ))
      else 1
    if gain1 ≥ 1 then
      { envelope := env, gain := 1, state := .hold, samples_in_state := 0 }
    else if env ≤ g.threshold_lin then
      { envelope := env, gain := gain1, state := .release,
        samples_in_state := 0 }
    else
      { envelope := env, gain := gain1, state := .attack,
        samples_in_state := n }
  | .hold =>
    let n := st.samples_in_state + 1
    if env ≤ g.threshold_lin then
      if n > g.hold_samples then
        { envelope := env, gain := 1, state := .release, samples_in_state := 0 }
      else
        { envelope := env, gain := 1, state := .hold, samples_in_state := n }
    else
      { envelope := env, gain := 1, state := .hold, samples_in_state := 0 }
  | .release =>
    let n := st.samples_in_state + 1
    let gain1 :=
      if g.release_samples > 0 then
        1 - (1 - g.attenuation_lin) * ((n : ℝ) / (g.release_samples : ℝ))
      else g.attenuation_lin
    if gain1 ≤ g.attenuation_lin then
      { envelope := env, gain := g.attenuation_lin, state := .closed,
        samples_in_state := 0 }
    else if env > g.threshold_lin then
      { envelope := env, gain := gain1, state := .attack,
        samples_in_state := 0 }
    else
      { envelope := env, gain := gain1, state := .release,
        samples_in_state := n }

/-- `NoiseGate.process_sample`: envelope detector, state machine, final
`np.clip(gain, attenuation_lin, 1.0)`, output `sample * gain`.  Returns
`(output_sample, new_state)`. -/
def NoiseGate.processSample (g : NoiseGate) (st : GateSt) (sample : ℝ) :
    ℝ × GateSt :=
  let input_level_lin := |sample|
  let env :=
    if input_level_lin > st.envelope then
      g.env_attack_coeff * st.envelope +
        (1 - g.env_attack_coeff) * input_level_lin
    else
      g.env_release_coeff * st.envelope +
        (1 - g.env_release_coeff) * input_level_lin
  let st2 := gateMachineStep g env st
  let gain := min 1 (max g.attenuation_lin st2.gain)
  (sample * gain, { st2 with gain := gain })

/-- Modelled from the spec (§4.1): the envelope-follower coefficient
formula `exp(-1 / time_in_samples)` with
`time_in_samples = max(1, time_ms/1000 * sample_rate)`.  This is the
spec-side definition used to compare the claim's formula against the two
code followers. -/
def specEnvelopeCoeff (time_ms sample_rate : ℝ) : ℝ :=
  Real.exp (-1 / max 1 (time_ms / 1000 * sample_rate))

/-- Modelled from the spec (§4.1): on each call, blend toward the input
with the attack coefficient when the input exceeds the current level,
otherwise with the release coefficient. -/
def specEnvelopeStep (attack_coeff release_coeff level input : ℝ) : ℝ :=
  if input > level then
    attack_coeff * level + (1 - attack_coeff) * input
  else
    release_coeff * level + (1 - release_coeff) * input

/-! ## Mastering chain (src/phonosyne/dsp/master.py)

`apply_mastering`: load (mono) → normalize → tanh saturation → multiband
compression (Butterworth band split via scipy) → hard limit at `0.98` →
normalize → write.  The file I/O boundary is modelled by taking the loaded
buffer as the argument and returning the buffer that is written.

The scipy routines `signal.butter` / `signal.sosfilt` are an external
dependency, not repository code.  `sosfilt` is the documented second-order-
section recurrence and is embedded exactly (with the sections normalised to
`a0 = 1`, as `butter` produces); `butter`'s coefficient design is embedded
as an UNSPECIFIED constant (`Classical.arbitrary`), so nothing proved below
can depend on the particular coefficient values scipy would return. -/

/-- One second-order section `[b0, b1, b2, 1, a1, a2]` of an SOS filter. -/
structure SOSection where
  b0 : ℝ
  b1 : ℝ
  b2 : ℝ
  a1 : ℝ
  a2 : ℝ

/-- External dependency `scipy.signal.butter(order, Wn, btype, output="sos")`,
modelled as an arbitrary, unspecified coefficient list: no proof below may
rely on the concrete values. -/
def scipyButter (order : ℕ) (wn : List ℝ) (btype : String) : List SOSection :=
  Classical.arbitrary _

/-- One second-order section of `scipy.signal.sosfilt` (direct form II
transposed), from zero initial state `z1 = z2 = 0`. -/
def sosSectionRun (s : SOSection) (z1 z2 : ℝ) : List ℝ → List ℝ
  | [] => []
  | x :: xs =>
    let y := s.b0 * x + z1
    let z1n := s.b1 * x - s.a1 * y + z2
    let z2n := s.b2 * x - s.a2 * y
    y :: sosSectionRun s z1n z2n xs

/-- `scipy.signal.sosfilt(sos, x)`: cascade the sections. -/
def sosfilt (sos : List SOSection) (x : List ℝ) : List ℝ :=
  sos.foldl (fun sig s => sosSectionRun s 0 0 sig) x

/-- `apply_saturation(y, drive_db)`.  Lines 19-25 of the source compute a
rescaled value and then discard it by reassigning
`y_saturated = np.tanh(y_driven)` (line 26); the returned signal is
`tanh(y * 10^(drive_db/20))`. -/
def apply_saturation (y : List ℝ) (drive_db : ℝ) : List ℝ :=
  let gain_linear := (10 : ℝ) ^ (drive_db / 20)
  (y.map (· * gain_linear)).map Real.tanh

/-- The per-sample envelope-detection loop of `apply_band_compression`
(master.py lines 53-63): blend with the attack coefficient when the absolute
sample exceeds the level, else with the release coefficient; emit the level
at every sample. -/
def envelopeLoop (alpha_attack alpha_release current_level : ℝ) :
    List ℝ → List ℝ
  | [] => []
  | a :: rest =>
    let lvl :=
      if a > current_level then
        alpha_attack * current_level + (1 - alpha_attack) * a
      else
        alpha_release * current_level + (1 - alpha_release) * a
    lvl :: envelopeLoop alpha_attack alpha_release lvl rest

/-- `apply_band_compression(y_band, sr, threshold_db, ratio, attack_ms,
release_ms)`: envelope detection, dB gain computation, gain application.
(The unused `threshold_linear` local of the source is omitted.) -/
def apply_band_compression (y_band : List ℝ) (sr threshold_db ratio attack_ms
    release_ms : ℝ) : List ℝ :=
  if ratio ≤ 0 then y_band
  else
    let attack_samples := max 1 (attack_ms / 1000 * sr)
    let release_samples := max 1 (release_ms / 1000 * sr)
    let alpha_attack := Real.exp (-1 / attack_samples)
    let alpha_release := Real.exp (-1 / release_samples)
    let abs_signal := y_band.map (|·|)
    let envelope := envelopeLoop alpha_attack alpha_release 0 abs_signal
    let envelope_db := envelope.map fun e => 20 * Real.logb 10 (e + 1e-12)
    let overshoot_db := envelope_db.map fun e => e - threshold_db
    let gain_reduction_db :=
      if ratio = 1 then overshoot_db.map fun _ => (0 : ℝ)
      else overshoot_db.map fun o => if o > 0 then o * (1 / ratio - 1) else 0
    let makeup_gain_linear := gain_reduction_db.map fun g => (10 : ℝ) ^ (g / 20)
    List.zipWith (· * ·) y_band makeup_gain_linear

/-- `np.sum(bands, axis=0)` over a list of equal-length 1-D arrays. -/
def npSumAxis0 : List (List ℝ) → List ℝ
  | [] => []
  | b :: bs => bs.foldl (fun acc l => List.zipWith (· + ·) acc l) b

/-- `apply_multiband_compression(y, sr, crossover_frequencies_hz,
thresholds_db, ratios, attack_ms, release_ms)`: length validation, band
split through Butterworth low/band/high-pass sections, per-band compression,
band summation. -/
def apply_multiband_compression (y : List ℝ) (sr : ℝ)
    (crossover_frequencies_hz thresholds_db ratios attack_ms release_ms :
      List ℝ) : Except PyError (List ℝ) :=
  let num_bands := crossover_frequencies_hz.length + 1
  let filter_order := 4
  if ¬ (thresholds_db.length = num_bands ∧ ratios.length = num_bands ∧
      attack_ms.length = num_bands ∧ release_ms.length = num_bands) then
    .error (.valueError "Parameter lists must have length equal to num_bands.")
  else
    let nyquist := sr / 2
    let norm_crossovers := crossover_frequencies_hz.map (· / nyquist)
    let low_band :=
      sosfilt (scipyButter filter_order [norm_crossovers.getD 0 0] "lowpass") y
    let low := apply_band_compression low_band sr (thresholds_db.getD 0 0)
      (ratios.getD 0 0) (attack_ms.getD 0 0) (release_ms.getD 0 0)
    let mids := (List.range (norm_crossovers.length - 1)).map fun i =>
      let mid_band := sosfilt (scipyButter filter_order
        [norm_crossovers.getD i 0, norm_crossovers.getD (i + 1) 0]
        "bandpass") y
      apply_band_compression mid_band sr (thresholds_db.getD (i + 1) 0)
        (ratios.getD (i + 1) 0) (attack_ms.getD (i + 1) 0)
        (release_ms.getD (i + 1) 0)
    let high_band := sosfilt (scipyButter filter_order
      [(norm_crossovers.getLast?).getD 0] "highpass") y
    let high := apply_band_compression high_band sr
      ((thresholds_db.getLast?).getD 0) ((ratios.getLast?).getD 0)
      ((attack_ms.getLast?).getD 0) ((release_ms.getLast?).getD 0)
    .ok (npSumAxis0 (low :: mids ++ [high]))

/-- `limiter(y, limit=0.99)`: `np.clip(y, -limit, limit)`. -/
def limiter (y : List ℝ) (limit : ℝ) : List ℝ :=
  y.map fun x => min limit (max (-limit) x)

/-- `normalize(y)`: divide by the peak unless the peak is zero.
`peak = np.max(np.abs(y))` raises `ValueError` on an empty buffer, so the
empty case is an error, not a value. -/
def normalize (y : List ℝ) : Except PyError (List ℝ) :=
  if y.isEmpty then
    .error (.valueError
      "zero-size array to reduction operation maximum which has no identity")
  else
    let peak := npMaxAbs y
    if peak = 0 then .ok y else .ok (y.map (· / peak))

/-- `apply_mastering(file_path, output_path)`, with the file I/O boundary
modelled away: the argument is the buffer `librosa.load(..., mono=True)`
returns and the result is the buffer handed to `sf.write`.  Stages and
constants follow lines 170-222 of master.py: normalize, saturation with
`drive_db = 6.0`, multiband compression with crossovers `[150, 800, 4000]`,
thresholds `[-24, -20, -18, -15]`, ratios `[2, 2.5, 3, 3.5]`, attacks
`[10, 8, 5, 3]`, releases `[150, 120, 100, 80]`, `limiter(y, 0.98)`, and a
final normalize. -/
def apply_mastering (y0 : List ℝ) (sr : ℝ) : Except PyError (List ℝ) :=
  match normalize y0 with
  | .error e => .error e
  | .ok y1 =>
    let y2 := apply_saturation y1 6
    match apply_multiband_compression y2 sr [150, 800, 4000]
        [-24, -20, -18, -15] [2, 5/2, 3, 7/2] [10, 8, 5, 3]
        [150, 120, 100, 80] with
    | .error e => .error e
    | .ok y3 => normalize (limiter y3 (98/100))

/-! ## WAV validator (src/phonosyne/dsp/validators.py)

`validate_wav(file_path, spec)`: the file-system boundary is modelled by a
`WavFile` record carrying what `sf.info` and `sf.read` would return for a
readable file.  All six conformance checks append to one `errors` list; a
single combined `ValidationFailedError` is raised when the list is
non-empty.  `scipy.signal.sosfiltfilt` (used only to band-limit the signal
ahead of the silence check) is external code and is modelled as an
unspecified function. -/

/-- What `sf.info(file_path)` returns for a readable WAV file. -/
structure SFInfo where
  samplerate : ℤ
  duration : ℝ
  subtype : String
  format : String
  channels : ℕ

/-- A readable WAV file: its metadata and its sample frames
(`frames × channels`, as `sf.read(file_path, dtype="float32")` returns). -/
structure WavFile where
  info : SFInfo
  data : List (List ℝ)

/-- The `AnalyzerOutput` pydantic schema
(src/phonosyne/agents/schemas.py): `effect_name`, `duration`,
`description` — note there is NO sample-rate field. -/
structure AnalyzerOutput where
  effect_name : String
  duration : ℝ
  description : String

/-- The per-sample values of the external dependency
`scipy.signal.sosfiltfilt`, modelled as an unspecified function: no proof
below may rely on them. -/
def scipySosfiltfiltFn : List SOSection → List ℝ → ℕ → ℝ :=
  Classical.arbitrary _

/-- External dependency `scipy.signal.sosfiltfilt`: an unspecified filter
that, like the real routine, returns a buffer of the input's length (its
output shape equals its input shape). -/
def scipySosfiltfilt (sos : List SOSection) (x : List ℝ) : List ℝ :=
  (List.range x.length).map (scipySosfiltfiltFn sos x)

/-- The mono reduction of the audio data ahead of the peak and silence
checks: channel 0 for mono files, `np.mean(raw, axis=1)` otherwise. -/
def audioDataMono (f : WavFile) : List ℝ :=
  if f.info.channels = 1 then f.data.map fun fr => fr.getD 0 0
  else f.data.map fun fr => fr.sum / (fr.length : ℝ)

/-- The sample-rate mismatch message (numeric details elided). -/
def srMsg : String := "Sample rate mismatch: expected DEFAULT_SR, got file samplerate."

/-- The duration mismatch message (numeric details elided). -/
def durMsg : String := "Duration out of tolerance."

/-- The subtype mismatch message (numeric details elided). -/
def subtypeMsg : String := "Bit depth/subtype mismatch: expected 32-bit float."

/-- The channel-count mismatch message (numeric details elided). -/
def channelMsg : String := "Channel count mismatch: expected 1 (mono)."

/-- The peak message (numeric details elided). -/
def peakMsg : String := "Peak level too high."

/-- The silence message (numeric details elided). -/
def silenceMsg : String := "Audio content is effectively silent."

/-- The message the peak check's `except` clause appends when the check
itself raises (lines 168-171) — reached when `np.max` is applied to a
zero-frame buffer (numeric/exception details elided). -/
def peakCheckErrorMsg : String := "Error during peak check."

/-- The message the silence check's `except` clause appends when the check
itself raises (lines 247-251) — reached when `np.max` is applied to a
zero-frame buffer (numeric/exception details elided). -/
def silenceCheckErrorMsg : String := "Error during silence check."

/-- Check 1: sample rate, compared against `settings.DEFAULT_SR` (the
`spec` argument plays no part in this check). -/
def srErrors (info : SFInfo) : List String :=
  if info.samplerate ≠ settings.DEFAULT_SR then [srMsg] else []

/-- Check 2: duration within `spec.duration ± settings.DURATION_TOLERANCE_S`. -/
def durationErrors (info : SFInfo) (spec : AnalyzerOutput) : List String :=
  let lower_bound := spec.duration - (settings.DURATION_TOLERANCE_S : ℝ)
  let upper_bound := spec.duration + (settings.DURATION_TOLERANCE_S : ℝ)
  if ¬ (lower_bound ≤ info.duration ∧ info.duration ≤ upper_bound) then
    [durMsg]
  else []

/-- Check 3: subtype must be `"FLOAT"` (32-bit float). -/
def subtypeErrors (info : SFInfo) : List String :=
  if info.subtype ≠ "FLOAT" then [subtypeMsg] else []

/-- Check 4: channel count must be 1. -/
def channelErrors (info : SFInfo) : List String :=
  if info.channels ≠ 1 then [channelMsg] else []

/-- Check 5: peak level in dBFS at most `settings.TARGET_PEAK_DBFS`; a
zero peak is `-inf` dBFS and never too high.  On a zero-frame buffer
`np.max(np.abs(...))` raises; the surrounding `try/except` catches it and
appends an error-report message instead of a verdict. -/
def peakErrors (mono : List ℝ) : List String :=
  if mono.isEmpty then [peakCheckErrorMsg]
  else
    let peak_linear := npMaxAbs mono
    if peak_linear = 0 then []
    else if 20 * Real.logb 10 peak_linear >
        (settings.TARGET_PEAK_DBFS : ℝ) then
      [peakMsg]
    else []

/-- The band-pass filtering the silence check attempts first (validators.py
lines 178-238): cutoffs 20 Hz and 20 kHz clamped into the valid normalised
range, order 4, skipped for signals of 12 samples or fewer or when the
normalised cutoffs are degenerate. -/
def silencePrep (info : SFInfo) (mono : List ℝ) : List ℝ :=
  if mono.length > 0 then
    let nyquist := (info.samplerate : ℝ) / 2
    let low_norm0 := 20 / nyquist
    let high_norm0 := 20000 / nyquist
    let high_norm := if high_norm0 ≥ 1 then 999/1000 else high_norm0
    let low_norm := if low_norm0 ≤ 0 then 1/100000 else low_norm0
    if low_norm < high_norm then
      if mono.length > 3 * 4 then
        scipySosfiltfilt (scipyButter 4 [low_norm, high_norm] "bandpass") mono
      else mono
    else mono
  else mono

/-- Check 6: effectively silent after the attempted band-limiting.  On a
zero-frame buffer the filtering is skipped (`size > 0` guard) and the
`np.max` of the empty copy raises; the surrounding `try/except` catches it
and appends an error-report message instead of a verdict. -/
def silenceErrors (info : SFInfo) (mono : List ℝ) : List String :=
  if mono.isEmpty then [silenceCheckErrorMsg]
  else if npMaxAbs (silencePrep info mono) <
      (settings.SILENCE_THRESHOLD_LINEAR : ℝ) then
    [silenceMsg]
  else []

/-- The `errors` list that `validate_wav` accumulates across all six checks
for a readable file (every check runs; none stops the others). -/
def validateErrors (f : WavFile) (spec : AnalyzerOutput) : List String :=
  srErrors f.info ++ durationErrors f.info spec ++ subtypeErrors f.info ++
    channelErrors f.info ++ peakErrors (audioDataMono f) ++
    silenceErrors f.info (audioDataMono f)

/-- The combined multi-line failure message. -/
def combinedMessage (errors : List String) : String :=
  "WAV file validation failed:\n" ++
    String.intercalate "\n" (errors.map ("- " ++ ·))

/-- `validate_wav(file_path, spec)` for a file that exists and is readable:
run all checks, then either return `True` or raise one combined
`ValidationFailedError`. -/
def validate_wav (f : WavFile) (spec : AnalyzerOutput) : Except PyError Bool :=
  let errors := validateErrors f spec
  if errors.isEmpty then .ok true
  else .error (.validationFailedError (combinedMessage errors))

/-! ## MFN block kernels (feedback_network.py lines 131-316 and 319-477)

Although `apply_feedback_network` can never reach them (see the section
above), the two block kernels themselves are embedded here and proved
pointwise equal, which is the equivalence property C1 cites.

The Python dicts (`node_defs_map`, `delay_lines_nodes`,
`current_write_pos_nodes`, the per-block accumulators) are embedded as
insertion-ordered association lists with first-match lookup; every update
in the kernels targets an existing key, so ordered-update suffices.
`_ring_buffer_write_nb` and `_ring_buffer_read_nb` are verbatim copies of
`_ring_buffer_write` and `_ring_buffer_read` (modulo Numba type
annotations), so one embedding serves both kernels. -/

/-- Ordered-dict lookup (`d[k]`), with a default for the unreachable
missing-key case. -/
def dictGet {α : Type} (d : List (String × α)) (k : String) (dflt : α) : α :=
  match d.find? (fun p => p.1 == k) with
  | some p => p.2
  | none => dflt

/-- Ordered-dict update of an existing key (`d[k] = v`), preserving
insertion order as Python dicts do. -/
def dictSet {α : Type} (d : List (String × α)) (k : String) (v : α) :
    List (String × α) :=
  d.map fun p => if p.1 = k then (p.1, v) else p

/-- NumPy slice assignment `buffer[start : start + len(vals)] = vals`
(callers guarantee the slice fits). -/
def listSliceSet (buffer : List ℝ) (start : ℕ) (vals : List ℝ) : List ℝ :=
  buffer.take start ++ vals ++ buffer.drop (start + vals.length)

/-- `_ring_buffer_write(buffer, write_pos, data_block)` (and its verbatim
Numba twin): write the block at the cursor, wrapping at capacity; return
the mutated buffer and the new write position
`(write_pos + block_size) % buffer_len`. -/
def ringBufferWrite (buffer : List ℝ) (write_pos : ℤ)
    (data_block : List ℝ) : List ℝ × ℤ :=
  let block_size := data_block.length
  let buffer_len := buffer.length
  if write_pos.toNat + block_size ≤ buffer_len then
    (listSliceSet buffer write_pos.toNat data_block,
      (write_pos + block_size) % buffer_len)
  else
    let num_first_part := buffer_len - write_pos.toNat
    let b1 := listSliceSet buffer write_pos.toNat
      (data_block.take num_first_part)
    let b2 := listSliceSet b1 0 (data_block.drop num_first_part)
    (b2, (write_pos + block_size) % buffer_len)

/-- `_ring_buffer_read(buffer, write_pos, delay_samples, block_size)` (and
its verbatim Numba twin): read a block starting
`delay_samples` behind the cursor, wrapping at capacity. -/
def ringBufferRead (buffer : List ℝ) (write_pos delay_samples : ℤ)
    (block_size : ℕ) : List ℝ :=
  let buffer_len : ℤ := buffer.length
  let read_head_start :=
    ((write_pos - delay_samples + buffer_len) % buffer_len).toNat
  if read_head_start + block_size ≤ buffer.length then
    (buffer.drop read_head_start).take block_size
  else
    buffer.drop read_head_start ++
      buffer.take (block_size - (buffer.length - read_head_start))

/-- The chaos/saturation nonlinearity of the NumPy kernel (lines 271-283):
pre-gain `1 + chaos·5`, `tanh`, rescale, `np.clip(·, -1, 1)`. -/
def chaosSaturate (chaos_level : ℝ) (signal : List ℝ) : List ℝ :=
  let saturation_factor := 1 + chaos_level * 5
  let temp_signal := (signal.map (· * saturation_factor)).map Real.tanh
  (temp_signal.map (· / saturation_factor)).map fun x => min 1 (max (-1) x)

/-- The elementwise clamp loop the Numba kernel uses in place of `np.clip`
(lines 438-443 and 461-466): `if val < -1: -1 elif val > 1: 1`. -/
def numbaClip1 (x : ℝ) : ℝ := if x < -1 then -1 else if x > 1 then 1 else x

/-- The chaos/saturation nonlinearity of the Numba kernel (lines 433-443):
identical to the NumPy one except for the explicit clamp loop. -/
def chaosSaturateNumba (chaos_level : ℝ) (signal : List ℝ) : List ℝ :=
  let saturation_factor := 1 + chaos_level * 5
  let temp_signal := (signal.map (· * saturation_factor)).map Real.tanh
  (temp_signal.map (· / saturation_factor)).map numbaClip1

/-- The body of the NumPy kernel's connection loop (step 2, lines 240-261):
read the source node's delay line at its own tap, apply the source node's
gain then the connection's gain, and add into the target's accumulator. -/
def numpyConnStep (node_defs_map : List (String × MFNNode))
    (delay_lines_nodes : List (String × List ℝ))
    (current_write_pos_nodes : List (String × ℤ)) (block_size : ℕ)
    (acc : List (String × List ℝ)) (conn : MFNConnection) :
    List (String × List ℝ) :=
  let source_node_def := dictGet node_defs_map conn.source_id ⟨"", 0, 0⟩
  let delayed_signal := ringBufferRead
    (dictGet delay_lines_nodes source_node_def.id [])
    (dictGet current_write_pos_nodes source_node_def.id 0)
    source_node_def.delay_samples block_size
  let after_gain := delayed_signal.map (· * (source_node_def.gain : ℝ))
  let feedback_to_target := after_gain.map (· * (conn.gain : ℝ))
  dictSet acc conn.target_id
    ((dictGet acc conn.target_id []).zipWith (· + ·) feedback_to_target)

/-- The body of the NumPy kernel's node loop (step 3, lines 267-303):
optional chaos saturation, write into the node's delay line, read the tap
(including what was just written), and add the gain-scaled tap into the
mixed output.  The fold state is `(mixed output, delay lines, write
positions)`. -/
def numpyNodeStep (chaos_level : ℝ) (accum : List (String × List ℝ))
    (block_size : ℕ)
    (st : List ℝ × List (String × List ℝ) × List (String × ℤ))
    (p : String × MFNNode) :
    List ℝ × List (String × List ℝ) × List (String × ℤ) :=
  let signal_to_write :=
    if chaos_level > 0 then chaosSaturate chaos_level (dictGet accum p.1 [])
    else dictGet accum p.1 []
  let wr := ringBufferWrite (dictGet st.2.1 p.1 [])
    (dictGet st.2.2 p.1 0) signal_to_write
  let tap := ringBufferRead wr.1 wr.2 p.2.delay_samples block_size
  (st.1.zipWith (· + ·) (tap.map (· * (p.2.gain : ℝ))),
    dictSet st.2.1 p.1 wr.1, dictSet st.2.2 p.1 wr.2)

/-- `_process_block_numpy(current_input_block, graph, node_defs_map,
delay_lines_nodes, current_write_pos_nodes, block_size)`: one block of the
MFN engine.  Returns `(output block, block RMS, (delay lines, write
positions))`.  A connection with a non-zero `delay_samples` raises
`NotImplementedError` (the source checks this per connection before
gathering any feedback; since an exception discards the kernel's state at
the caller, the guard is modelled up front). -/
def processBlockNumpy (current_input_block : List ℝ) (graph : MFNGraph)
    (node_defs_map : List (String × MFNNode))
    (delay_lines_nodes : List (String × List ℝ))
    (current_write_pos_nodes : List (String × ℤ)) (block_size : ℕ) :
    Except PyError (List ℝ × ℝ × (List (String × List ℝ) × List (String × ℤ))) :=
  if ¬ graph.connections.all (fun c => c.delay_samples == 0) then
    .error (.notImplementedError
      "Connection-specific delays are not supported in this NumPy kernel version.")
  else
    -- accumulators: one zero block per node
    let accum0 : List (String × List ℝ) :=
      node_defs_map.map fun p => (p.1, List.replicate block_size (0 : ℝ))
    -- 1. global input distribution
    let scaled_global_input :=
      current_input_block.map (· * (graph.input_gain : ℝ))
    let accum1 := accum0.map fun p =>
      (p.1, p.2.zipWith (· + ·) scaled_global_input)
    -- 2. gather feedback along the connections
    let accum2 := graph.connections.foldl
      (numpyConnStep node_defs_map delay_lines_nodes current_write_pos_nodes
        block_size) accum1
    -- 3. per node: chaos, write, tap, mix contribution
    let step3 := node_defs_map.foldl
      (numpyNodeStep (graph.chaos_level : ℝ) accum2 block_size)
      (List.replicate block_size (0 : ℝ),
        delay_lines_nodes, current_write_pos_nodes)
    -- 4. output scaling and hard clip
    let final_block_output :=
      (step3.1.map (· * (graph.output_gain : ℝ))).map fun x =>
        min 1 (max (-1) x)
    -- 5. block RMS
    let rms_value :=
      if block_size > 0 then
        Real.sqrt ((final_block_output.map fun x => x * x).sum / block_size)
      else 0
    .ok (final_block_output, rms_value, step3.2)

/-- The body of the Numba kernel's connection loop (lines 395-422): as
`numpyConnStep`, but addressed through the wrapper's index arrays. -/
def numbaConnStep (node_ids_list : List String) (node_gains_arr : List ℝ)
    (node_delays_arr : List ℤ)
    (conn_source_indices conn_target_indices : List ℕ)
    (conn_gains_arr : List ℝ)
    (delay_lines_nodes : List (String × List ℝ))
    (current_write_pos_nodes : List (String × ℤ)) (block_size : ℕ)
    (acc : List (String × List ℝ)) (i : ℕ) : List (String × List ℝ) :=
  let source_node_idx := conn_source_indices.getD i 0
  let target_node_idx := conn_target_indices.getD i 0
  let source_node_id := node_ids_list.getD source_node_idx ""
  let target_node_id := node_ids_list.getD target_node_idx ""
  let conn_gain := conn_gains_arr.getD i 0
  let source_node_delay_samples := node_delays_arr.getD source_node_idx 0
  let source_node_gain := node_gains_arr.getD source_node_idx 0
  let delayed_signal := ringBufferRead
    (dictGet delay_lines_nodes source_node_id [])
    (dictGet current_write_pos_nodes source_node_id 0)
    source_node_delay_samples block_size
  let after_gain := delayed_signal.map (· * source_node_gain)
  let feedback_to_target := after_gain.map (· * conn_gain)
  dictSet acc target_node_id
    ((dictGet acc target_node_id []).zipWith (· + ·) feedback_to_target)

/-- The body of the Numba kernel's node loop (lines 426-458): as
`numpyNodeStep`, addressed through the index arrays, with the explicit
clamp loop inside `chaosSaturateNumba`. -/
def numbaNodeStep (graph_chaos_level : ℝ) (accum : List (String × List ℝ))
    (node_ids_list : List String) (node_gains_arr : List ℝ)
    (node_delays_arr : List ℤ) (block_size : ℕ)
    (st : List ℝ × List (String × List ℝ) × List (String × ℤ)) (i : ℕ) :
    List ℝ × List (String × List ℝ) × List (String × ℤ) :=
  let node_id := node_ids_list.getD i ""
  let node_gain := node_gains_arr.getD i 0
  let node_delay_samples := node_delays_arr.getD i 0
  let signal_to_write :=
    if graph_chaos_level > 0 then
      chaosSaturateNumba graph_chaos_level (dictGet accum node_id [])
    else dictGet accum node_id []
  let wr := ringBufferWrite (dictGet st.2.1 node_id [])
    (dictGet st.2.2 node_id 0) signal_to_write
  let tap := ringBufferRead wr.1 wr.2 node_delay_samples block_size
  (st.1.zipWith (· + ·) (tap.map (· * node_gain)),
    dictSet st.2.1 node_id wr.1, dictSet st.2.2 node_id wr.2)

/-- `_process_block_numba(...)` (lines 362-477): the same block algorithm
as `_process_block_numpy`, iterating node and connection INDEX arrays
instead of the graph objects, with explicit clamp loops instead of
`np.clip` and an explicit sum-of-squares loop for the RMS.
(`conn_delay_samples_arr` is accepted but, as in the source, never read.) -/
def processBlockNumba (current_input_block : List ℝ)
    (graph_input_gain graph_output_gain graph_chaos_level : ℝ)
    (node_ids_list : List String) (node_gains_arr : List ℝ)
    (node_delays_arr : List ℤ)
    (conn_source_indices conn_target_indices : List ℕ)
    (conn_gains_arr : List ℝ) (conn_delay_samples_arr : List ℤ)
    (delay_lines_nodes : List (String × List ℝ))
    (current_write_pos_nodes : List (String × ℤ)) (block_size : ℕ) :
    List ℝ × ℝ × (List (String × List ℝ) × List (String × ℤ)) :=
  let accum0 : List (String × List ℝ) :=
    node_ids_list.map fun node_id =>
      (node_id, List.replicate block_size (0 : ℝ))
  let scaled_global_input := current_input_block.map (· * graph_input_gain)
  let accum1 := accum0.map fun p =>
    (p.1, p.2.zipWith (· + ·) scaled_global_input)
  let accum2 := (List.range conn_source_indices.length).foldl
    (numbaConnStep node_ids_list node_gains_arr node_delays_arr
      conn_source_indices conn_target_indices conn_gains_arr
      delay_lines_nodes current_write_pos_nodes block_size) accum1
  let step3 := (List.range node_ids_list.length).foldl
    (numbaNodeStep graph_chaos_level accum2 node_ids_list node_gains_arr
      node_delays_arr block_size)
    (List.replicate block_size (0 : ℝ),
      delay_lines_nodes, current_write_pos_nodes)
  let final_block_output :=
    (step3.1.map (· * graph_output_gain)).map numbaClip1
  let rms_value :=
    if block_size > 0 then
      Real.sqrt ((final_block_output.foldl (fun s x => s + x * x) 0) /
        block_size)
    else 0
  (final_block_output, rms_value, step3.2)

end

/-! ## Claims about the multi-feedback network (C10, C1) -/

/-- C10: for every 1-D input buffer, `apply_feedback_network` on an
`MFNGraph` whose node list is empty does not raise: it returns a copy of the
input buffer, unchanged sample for sample (feedback_network.py lines
581-583). -/
theorem apply_feedback_network_empty_graph_returns_copy
    (audio_data : List ℚ) (graph : MFNGraph) (sample_rate block_size : ℤ)
    (use_numba enable_watchdog : Bool) (h : graph.nodes = []) :
    apply_feedback_network audio_data graph sample_rate block_size use_numba
      enable_watchdog = Except.ok audio_data := by
  simp [apply_feedback_network, h]

/-- Witness for `apply_feedback_network_empty_graph_returns_copy` at a
concrete empty graph and buffer. -/
theorem apply_feedback_network_empty_graph_returns_copy_witness :
    (⟨[], [], 1, 1, some 0, 0⟩ : MFNGraph).nodes = [] ∧
    apply_feedback_network [1, 2, 3] ⟨[], [], 1, 1, some 0, 0⟩ 48000 256
      true true = Except.ok [1, 2, 3] :=
  ⟨rfl, apply_feedback_network_empty_graph_returns_copy [1, 2, 3] _ 48000 256
    true true rfl⟩

/-- C1: a valid multi-node, multi-connection graph with nonzero chaos level
(`chaos_level = 1`) makes `apply_feedback_network` raise `AttributeError`
under BOTH kernel selections — line 595 reads `node.max_delay_s`, a field
the module's own `MFNNode` dataclass does not define — so neither run
produces an output buffer that could be compared. -/
theorem apply_feedback_network_raises_for_nonempty_graph :
    mkMFNGraph
        [⟨"node1", 4410, 1⟩, ⟨"node2", 6615, 1⟩]
        [⟨"node1", "node2", 1, 0⟩, ⟨"node2", "node1", -1, 0⟩]
        1 1 none 1 =
      Except.ok ⟨[⟨"node1", 4410, 1⟩, ⟨"node2", 6615, 1⟩],
        [⟨"node1", "node2", 1, 0⟩, ⟨"node2", "node1", -1, 0⟩],
        1, 1, some 6615, 1⟩ ∧
    apply_feedback_network [1, -1, 1]
        ⟨[⟨"node1", 4410, 1⟩, ⟨"node2", 6615, 1⟩],
          [⟨"node1", "node2", 1, 0⟩, ⟨"node2", "node1", -1, 0⟩],
          1, 1, some 6615, 1⟩ 44100 256 true true =
      Except.error (.attributeError
        "MFNNode object has no attribute max_delay_s") ∧
    apply_feedback_network [1, -1, 1]
        ⟨[⟨"node1", 4410, 1⟩, ⟨"node2", 6615, 1⟩],
          [⟨"node1", "node2", 1, 0⟩, ⟨"node2", "node1", -1, 0⟩],
          1, 1, some 6615, 1⟩ 44100 256 false true =
      Except.error (.attributeError
        "MFNNode object has no attribute max_delay_s") := by
  refine ⟨?_, ?_, ?_⟩ <;> decide

/-! ## Claims about the effect output ranges and parameter validation
(C5, C6) -/

/-- C5 counterexample: `apply_delay` with valid parameters
(`feedback = 1/2 ∈ [0,1)`, `mix = 1 ∈ [0,1]`, one-sample delay) on the
float buffer `[1, 1, 1]` returns `[0, 1, 3/2]`, whose last sample lies
outside `[-1, 1]`: this effect applies no clipping at its exit point. -/
theorem apply_delay_output_exceeds_unit_range :
    apply_delay [1, 1, 1] (1/48000) (1/2) 1 = Except.ok [0, 1, 3/2] ∧
    ¬ (∀ y ∈ [(0 : ℚ), 1, 3/2], -1 ≤ y ∧ y ≤ 1) := by
  constructor
  · norm_num [apply_delay, pyInt, settings.DEFAULT_SR, delayLoop, delayStep,
      npRoll1]
  · intro h
    have h32 := (h (3/2) (by simp)).2
    norm_num at h32

/-- C5 amended: the exit-point clipping claim holds for `apply_distortion`:
whenever it returns a buffer (floating-point path), every sample lies in
`[-1, 1]` thanks to the final `np.clip(processed_audio, -1.0, 1.0)`. -/
theorem apply_distortion_output_in_unit_range (audio_data : List ℚ)
    (sample_rate : ℤ) (drive mix : ℚ) (out : List ℚ × ℤ)
    (h : apply_distortion audio_data sample_rate drive mix = Except.ok out) :
    ∀ y ∈ out.1, -1 ≤ y ∧ y ≤ 1 := by
  unfold apply_distortion at h
  split_ifs at h with h1 h2 h3
  · cases h
    intro y hy
    simp [List.isEmpty_iff.mp h3] at hy
  · cases h
    intro y hy
    simp only [List.mem_map] at hy
    obtain ⟨x, -, rfl⟩ := hy
    unfold npClip
    refine ⟨le_min (by norm_num) ?_, min_le_left _ _⟩
    exact le_max_left _ _

/-- Witness for `apply_distortion_output_in_unit_range` at a concrete
invocation (`drive = 1`, `mix = 1/2` drives the sample `2` to the clipped
value `1`). -/
theorem apply_distortion_output_in_unit_range_witness :
    apply_distortion [2] 44100 1 (1/2) = Except.ok ([1], 44100) ∧
    ∀ y ∈ ([(1 : ℚ)] : List ℚ), -1 ≤ y ∧ y ≤ 1 :=
  ⟨by norm_num [apply_distortion, npClip],
    apply_distortion_output_in_unit_range [2] 44100 1 (1/2) ([1], 44100)
      (by norm_num [apply_distortion, npClip])⟩

/-- C6: out-of-range parameters make the effects fail fast with a
`ValueError` and no output buffer: `apply_delay` for `feedback ∉ [0, 1)` or
`mix ∉ [0, 1]`; `apply_distortion` for `drive ∉ [0, 1]` or `mix ∉ [0, 1]`;
`apply_tremolo` for an `lfo_shape` outside sine/triangle/square or
`depth ∉ [0, 1]`. -/
theorem effects_reject_out_of_range_parameters :
    (∀ (audio_data : List ℚ) (t fb mx : ℚ),
      ¬ (0 ≤ fb ∧ fb < 1) ∨ ¬ (0 ≤ mx ∧ mx ≤ 1) →
      ∃ m, apply_delay audio_data t fb mx = Except.error (.valueError m)) ∧
    (∀ (audio_data : List ℚ) (sr : ℤ) (dr mx : ℚ),
      ¬ (0 ≤ dr ∧ dr ≤ 1) ∨ ¬ (0 ≤ mx ∧ mx ≤ 1) →
      ∃ m, apply_distortion audio_data sr dr mx =
        Except.error (.valueError m)) ∧
    (∀ (audio_data : List ℝ) (rate depth phase : ℝ) (shape : String),
      (shape ≠ "sine" ∧ shape ≠ "triangle" ∧ shape ≠ "square") ∨
        ¬ (0 ≤ depth ∧ depth ≤ 1) →
      ∃ m, apply_tremolo audio_data rate depth shape phase =
        Except.error (.valueError m)) := by
  refine ⟨?_, ?_, ?_⟩
  · intro audio_data t fb mx h
    unfold apply_delay
    rcases h with h | h
    · exact ⟨_, by rw [if_pos h]⟩
    · by_cases hfb : 0 ≤ fb ∧ fb < 1
      · exact ⟨_, by rw [if_neg (not_not_intro hfb), if_pos h]⟩
      · exact ⟨_, by rw [if_pos hfb]⟩
  · intro audio_data sr dr mx h
    unfold apply_distortion
    rcases h with h | h
    · exact ⟨_, by rw [if_pos h]⟩
    · by_cases hdr : 0 ≤ dr ∧ dr ≤ 1
      · exact ⟨_, by rw [if_neg (not_not_intro hdr), if_pos h]⟩
      · exact ⟨_, by rw [if_pos hdr]⟩
  · intro audio_data rate depth phase shape h
    unfold apply_tremolo
    by_cases hd : 0 ≤ depth ∧ depth ≤ 1
    · rcases h with h | h
      · by_cases hp : 0 ≤ phase ∧ phase ≤ 180
        · exact ⟨_, by rw [if_neg (not_not_intro hd),
            if_neg (not_not_intro hp), if_pos h]⟩
        · exact ⟨_, by rw [if_neg (not_not_intro hd), if_pos hp]⟩
      · exact absurd hd h
    · exact ⟨_, by rw [if_pos hd]⟩

/-- Witness for `effects_reject_out_of_range_parameters` at concrete
out-of-range invocations: delay feedback `3/2`, distortion drive `2`,
tremolo shape `"saw"`. -/
theorem effects_reject_out_of_range_parameters_witness :
    (∃ m, apply_delay [0] (1/10) (3/2) (1/2) =
      Except.error (.valueError m)) ∧
    (∃ m, apply_distortion [0] 48000 2 (1/2) =
      Except.error (.valueError m)) ∧
    (∃ m, apply_tremolo [0] 5 (1/2) "saw" 0 =
      Except.error (.valueError m)) :=
  ⟨effects_reject_out_of_range_parameters.1 [0] (1/10) (3/2) (1/2)
      (Or.inl (by norm_num)),
    effects_reject_out_of_range_parameters.2.1 [0] 48000 2 (1/2)
      (Or.inl (by norm_num)),
    effects_reject_out_of_range_parameters.2.2 [0] 5 (1/2) 0 "saw"
      (Or.inl (by decide))⟩

/-! ## Claims about the dynamics processors (C7, C8, C9) -/

/-- With `ratio = 1`, `_calculate_gain_reduction` returns `0` in every
branch: hard-knee slopes `1 - 1/ratio` vanish and the soft-knee effective
ratio collapses to `1`. -/
theorem calculateGainReduction_eq_zero_of_ratio_one (c : Compressor)
    (h : c.ratio = 1) (level_db : ℝ) :
    calculateGainReduction c level_db = 0 := by
  simp only [calculateGainReduction, h]
  split_ifs <;> simp_all

/-- With `ratio = 1`, one `process_sample` call outputs
`sample * makeup_gain_lin`, whatever the envelope state. -/
theorem processSample_ratio_one (c : Compressor) (h : c.ratio = 1)
    (envelope x : ℝ) :
    (c.processSample envelope x).1 = x * c.makeup_gain_lin := by
  simp only [Compressor.processSample]
  split_ifs <;>
    simp [calculateGainReduction_eq_zero_of_ratio_one c h, Real.rpow_zero]

/-- With `ratio = 1`, `process_block` maps every sample to
`sample * makeup_gain_lin`, for any starting envelope. -/
theorem processBlock_ratio_one (c : Compressor) (h : c.ratio = 1) :
    ∀ (envelope : ℝ) (audio_block : List ℝ),
      c.processBlock envelope audio_block =
        audio_block.map (· * c.makeup_gain_lin)
  | _, [] => by simp [Compressor.processBlock]
  | envelope, x :: xs => by
    simp only [Compressor.processBlock, List.map_cons]
    rw [processSample_ratio_one c h envelope x,
      processBlock_ratio_one c h _ xs]

/-- C7: for every input buffer and every setting of threshold, attack,
release, knee and makeup gain, the compressor with `ratio = 1.0` is a no-op
modulo makeup gain: each output sample equals the corresponding input
sample times the constant linear makeup gain `10^(makeup_gain_db/20)`, and
exactly the input when `makeup_gain_db = 0`. -/
theorem compressor_ratio_one_is_identity_modulo_makeup
    (threshold_db attack_ms release_ms makeup_gain_db knee_db envelope : ℝ)
    (audio_data : List ℝ) :
    (mkCompressor threshold_db 1 attack_ms release_ms makeup_gain_db
        knee_db).processBlock envelope audio_data =
      audio_data.map (· * (10 : ℝ) ^ (makeup_gain_db / 20)) ∧
    (mkCompressor threshold_db 1 attack_ms release_ms 0
        knee_db).processBlock envelope audio_data = audio_data := by
  constructor
  · exact processBlock_ratio_one _ rfl envelope audio_data
  · rw [processBlock_ratio_one _ rfl envelope audio_data]
    have : (mkCompressor threshold_db 1 attack_ms release_ms 0
        knee_db).makeup_gain_lin = 1 := by
      simp [mkCompressor]
    rw [this]
    simp

/-- C8: at every processed sample, in every state of the
closed/attack/hold/release machine, the gain the gate multiplies into the
signal lies within `[attenuation_lin, 1.0]` (the final
`np.clip(gain, attenuation_lin, 1.0)`), for any valid configuration, i.e.
one whose attenuation floor does not exceed unity. -/
theorem noise_gate_gain_within_attenuation_and_unity (g : NoiseGate)
    (st : GateSt) (sample : ℝ) (h : g.attenuation_lin ≤ 1) :
    g.attenuation_lin ≤ ((g.processSample st sample).2).gain ∧
    ((g.processSample st sample).2).gain ≤ 1 ∧
    (g.processSample st sample).1 =
      sample * ((g.processSample st sample).2).gain := by
  simp only [NoiseGate.processSample]
  refine ⟨le_min h (le_max_left _ _), min_le_left _ _, ?_⟩
  trivial

/-- Witness for `noise_gate_gain_within_attenuation_and_unity` at the
default configuration (`attenuation_db = -96`, hence
`attenuation_lin = 10^(-4.8) ≤ 1`), a closed gate and one sample. -/
theorem noise_gate_gain_within_attenuation_and_unity_witness :
    (mkNoiseGate 48000 (-50) 1 10 20 (-96)).attenuation_lin ≤ 1 ∧
    (mkNoiseGate 48000 (-50) 1 10 20 (-96)).attenuation_lin ≤
      (((mkNoiseGate 48000 (-50) 1 10 20 (-96)).processSample
        ⟨0, 1, GateState.closed, 0⟩ (1/2)).2).gain := by
  have hatt : (mkNoiseGate 48000 (-50) 1 10 20 (-96)).attenuation_lin ≤ 1 := by
    show (10 : ℝ) ^ ((-96 : ℝ) / 20) ≤ 1
    exact Real.rpow_le_one_of_one_le_of_nonpos (by norm_num) (by norm_num)
  exact ⟨hatt, (noise_gate_gain_within_attenuation_and_unity _
    ⟨0, 1, GateState.closed, 0⟩ (1/2) hatt).1⟩

/-- C9 counterexample: `Compressor.__init__` with `attack_ms = 0` stores an
attack coefficient of `0.0`, whereas the claimed formula
`exp(-1 / max(1, time_ms/1000 * sample_rate))` gives `exp(-1) ≠ 0`: the
per-sample compressor does not floor the envelope time at one sample. -/
theorem compressor_coeff_lacks_one_sample_floor :
    (mkCompressor (-20) 4 0 50 0 0).attack_coeff = 0 ∧
    (mkCompressor (-20) 4 0 50 0 0).attack_coeff ≠
      Real.exp (-1 / max 1 ((0 : ℝ) / 1000 * (settings.DEFAULT_SR : ℝ))) := by
  have h0 : (mkCompressor (-20) 4 0 50 0 0).attack_coeff = 0 := by
    simp [mkCompressor]
  refine ⟨h0, ?_⟩
  rw [h0]
  exact Ne.symm (Real.exp_ne_zero _)

/-- C9 amended: the band-compression follower (master.py) uses exactly the
spec formula `exp(-1 / max(1, ms/1000 · sr))` and the spec blend rule; the
per-sample `Compressor` follower uses the same blend rule but computes its
coefficients WITHOUT the `max(1, ·)` floor — `exp(-1 / (ms/1000 · sr))`,
which agrees with the spec formula only when `ms/1000 · sr ≥ 1`, and is
`0.0` for non-positive times. -/
theorem dynamics_envelope_follower_formulas
    (time_ms r_ms threshold_db ratio makeup_db knee_db : ℝ) :
    (∀ (a r lvl x : ℝ) (xs : List ℝ),
      envelopeLoop a r lvl (x :: xs) =
        specEnvelopeStep a r lvl x ::
          envelopeLoop a r (specEnvelopeStep a r lvl x) xs) ∧
    (∀ sr : ℝ, Real.exp (-1 / max 1 (time_ms / 1000 * sr)) =
      specEnvelopeCoeff time_ms sr) ∧
    (time_ms / 1000 * (settings.DEFAULT_SR : ℝ) ≥ 1 →
      (mkCompressor threshold_db ratio time_ms r_ms makeup_db
          knee_db).attack_coeff =
        specEnvelopeCoeff time_ms (settings.DEFAULT_SR : ℝ)) ∧
    (time_ms ≤ 0 →
      (mkCompressor threshold_db ratio time_ms r_ms makeup_db
          knee_db).attack_coeff = 0) ∧
    (r_ms / 1000 * (settings.DEFAULT_SR : ℝ) ≥ 1 →
      (mkCompressor threshold_db ratio time_ms r_ms makeup_db
          knee_db).release_coeff =
        specEnvelopeCoeff r_ms (settings.DEFAULT_SR : ℝ)) ∧
    (r_ms ≤ 0 →
      (mkCompressor threshold_db ratio time_ms r_ms makeup_db
          knee_db).release_coeff = 0) ∧
    (∀ (c : Compressor) (envelope x : ℝ),
      (c.processSample envelope x).2 =
        specEnvelopeStep c.attack_coeff c.release_coeff envelope |x|) := by
  have hsr : (0 : ℝ) < (settings.DEFAULT_SR : ℝ) := by
    norm_num [settings.DEFAULT_SR]
  refine ⟨?_, ?_, ?_, ?_, ?_, ?_, ?_⟩
  · intro a r lvl x xs
    simp only [envelopeLoop, specEnvelopeStep]
  · intro sr
    rfl
  · intro h
    have hpos : time_ms > 0 := by
      by_contra hc
      push_neg at hc
      have : time_ms / 1000 * (settings.DEFAULT_SR : ℝ) ≤ 0 := by
        apply mul_nonpos_of_nonpos_of_nonneg
        · linarith
        · linarith
      linarith
    simp only [mkCompressor, if_pos hpos, specEnvelopeCoeff,
      max_eq_right h]
  · intro h
    have : ¬ time_ms > 0 := by linarith
    simp only [mkCompressor, if_neg this]
  · intro h
    have hpos : r_ms > 0 := by
      by_contra hc
      push_neg at hc
      have : r_ms / 1000 * (settings.DEFAULT_SR : ℝ) ≤ 0 := by
        apply mul_nonpos_of_nonpos_of_nonneg
        · linarith
        · linarith
      linarith
    simp only [mkCompressor, if_pos hpos, specEnvelopeCoeff,
      max_eq_right h]
  · intro h
    have : ¬ r_ms > 0 := by linarith
    simp only [mkCompressor, if_neg this]
  · intro c envelope x
    simp only [Compressor.processSample, specEnvelopeStep]

/-- Witness for `dynamics_envelope_follower_formulas`: the floored and
unfloored formulas agree at `attack_ms = 5` (240 samples), and the
zero-time branch is exercised at `attack_ms = 0`. -/
theorem dynamics_envelope_follower_formulas_witness :
    ((5 : ℝ) / 1000 * (settings.DEFAULT_SR : ℝ) ≥ 1 ∧
      (mkCompressor (-20) 4 5 50 0 0).attack_coeff =
        specEnvelopeCoeff 5 (settings.DEFAULT_SR : ℝ)) ∧
    ((0 : ℝ) ≤ 0 ∧ (mkCompressor (-20) 4 0 50 0 0).attack_coeff = 0) := by
  have h5 : (5 : ℝ) / 1000 * (settings.DEFAULT_SR : ℝ) ≥ 1 := by
    norm_num [settings.DEFAULT_SR]
  exact ⟨⟨h5,
      (dynamics_envelope_follower_formulas 5 50 (-20) 4 0 0).2.2.1 h5⟩,
    ⟨le_refl 0,
      (dynamics_envelope_follower_formulas 0 50 (-20) 4 0 0).2.2.2.1
        (le_refl 0)⟩⟩

/-! ## Claims about the WAV validator (C2, C4) -/

/-- Membership in the sample-rate check result. -/
theorem mem_srErrors_iff (info : SFInfo) (m : String) :
    m ∈ srErrors info ↔
      (info.samplerate ≠ settings.DEFAULT_SR ∧ m = srMsg) := by
  unfold srErrors
  split_ifs with h <;> simp [h]

/-- Membership in the duration check result. -/
theorem mem_durationErrors_iff (info : SFInfo) (spec : AnalyzerOutput)
    (m : String) :
    m ∈ durationErrors info spec ↔
      (¬ (spec.duration - (settings.DURATION_TOLERANCE_S : ℝ) ≤ info.duration ∧
          info.duration ≤ spec.duration + (settings.DURATION_TOLERANCE_S : ℝ)) ∧
        m = durMsg) := by
  simp only [durationErrors]
  split_ifs with h
  · exact iff_of_false (List.not_mem_nil m) fun hc => absurd h hc.1
  · exact ⟨fun hm => ⟨h, List.mem_singleton.mp hm⟩,
      fun hc => hc.2 ▸ List.mem_singleton.mpr rfl⟩

/-- Membership in the subtype check result. -/
theorem mem_subtypeErrors_iff (info : SFInfo) (m : String) :
    m ∈ subtypeErrors info ↔ (info.subtype ≠ "FLOAT" ∧ m = subtypeMsg) := by
  unfold subtypeErrors
  split_ifs with h <;> simp [h]

/-- Membership in the channel-count check result. -/
theorem mem_channelErrors_iff (info : SFInfo) (m : String) :
    m ∈ channelErrors info ↔ (info.channels ≠ 1 ∧ m = channelMsg) := by
  unfold channelErrors
  split_ifs with h <;> simp [h]

/-- Membership in the peak check result: either the error report for a
zero-frame buffer, or the too-high verdict. -/
theorem mem_peakErrors_iff (mono : List ℝ) (m : String) :
    m ∈ peakErrors mono ↔
      ((mono = [] ∧ m = peakCheckErrorMsg) ∨
        ((mono ≠ [] ∧ npMaxAbs mono ≠ 0 ∧
          20 * Real.logb 10 (npMaxAbs mono) >
            (settings.TARGET_PEAK_DBFS : ℝ)) ∧ m = peakMsg)) := by
  simp only [peakErrors]
  split_ifs with he h1 h2 <;>
    simp_all [List.isEmpty_iff, peakMsg, peakCheckErrorMsg]

/-- Membership in the silence check result: either the error report for a
zero-frame buffer, or the silence verdict. -/
theorem mem_silenceErrors_iff (info : SFInfo) (mono : List ℝ) (m : String) :
    m ∈ silenceErrors info mono ↔
      ((mono = [] ∧ m = silenceCheckErrorMsg) ∨
        ((mono ≠ [] ∧ npMaxAbs (silencePrep info mono) <
          (settings.SILENCE_THRESHOLD_LINEAR : ℝ)) ∧ m = silenceMsg)) := by
  simp only [silenceErrors]
  split_ifs with he h <;>
    simp_all [List.isEmpty_iff, silenceMsg, silenceCheckErrorMsg]

/-- C2: for every readable WAV file, `validate_wav` runs all six
conformance checks and collects every failure: it returns `True` iff no
check records anything, otherwise it raises exactly one combined
`ValidationFailedError` whose message joins the recorded reasons of
precisely the violated checks, each appearing iff its check fails,
independently of the other checks.  On a zero-frame file the peak and
silence checks raise internally (`np.max` of an empty array); the
`except` clauses catch this and record an error-report text in place of a
verdict, which the last four conjuncts capture exactly. -/
theorem validate_wav_collects_all_failures (f : WavFile)
    (spec : AnalyzerOutput) (hsr : 0 < f.info.samplerate) :
    (validate_wav f spec = Except.ok true ↔ validateErrors f spec = []) ∧
    (validateErrors f spec ≠ [] →
      validate_wav f spec = Except.error (.validationFailedError
        (combinedMessage (validateErrors f spec)))) ∧
    (srMsg ∈ validateErrors f spec ↔
      f.info.samplerate ≠ settings.DEFAULT_SR) ∧
    (durMsg ∈ validateErrors f spec ↔
      ¬ (spec.duration - (settings.DURATION_TOLERANCE_S : ℝ) ≤
          f.info.duration ∧
        f.info.duration ≤
          spec.duration + (settings.DURATION_TOLERANCE_S : ℝ))) ∧
    (subtypeMsg ∈ validateErrors f spec ↔ f.info.subtype ≠ "FLOAT") ∧
    (channelMsg ∈ validateErrors f spec ↔ f.info.channels ≠ 1) ∧
    (peakMsg ∈ validateErrors f spec ↔
      (audioDataMono f ≠ [] ∧ npMaxAbs (audioDataMono f) ≠ 0 ∧
        20 * Real.logb 10 (npMaxAbs (audioDataMono f)) >
          (settings.TARGET_PEAK_DBFS : ℝ))) ∧
    (silenceMsg ∈ validateErrors f spec ↔
      (audioDataMono f ≠ [] ∧
        npMaxAbs (silencePrep f.info (audioDataMono f)) <
          (settings.SILENCE_THRESHOLD_LINEAR : ℝ))) ∧
    (peakCheckErrorMsg ∈ validateErrors f spec ↔ audioDataMono f = []) ∧
    (silenceCheckErrorMsg ∈ validateErrors f spec ↔ audioDataMono f = []) := by
  refine ⟨?_, ?_, ?_, ?_, ?_, ?_, ?_, ?_, ?_, ?_⟩
  · simp only [validate_wav]
    split_ifs with h
    · simp [List.isEmpty_iff.mp h]
    · have : validateErrors f spec ≠ [] := by
        simpa [List.isEmpty_iff] using h
      simp [this]
  · intro hne
    simp only [validate_wav]
    rw [if_neg (by simpa [List.isEmpty_iff] using hne)]
  all_goals
    simp only [validateErrors, List.mem_append, mem_srErrors_iff,
      mem_durationErrors_iff, mem_subtypeErrors_iff, mem_channelErrors_iff,
      mem_peakErrors_iff, mem_silenceErrors_iff]
    simp [srMsg, durMsg, subtypeMsg, channelMsg, peakMsg, silenceMsg,
      peakCheckErrorMsg, silenceCheckErrorMsg]

/-- Witness for `validate_wav_collects_all_failures` at a concrete readable
file: 24 kHz, 5 frames, mono 32-bit float, duration consistent with its
frame count. -/
theorem validate_wav_collects_all_failures_witness :
    (0 : ℤ) < 24000 ∧
    (srMsg ∈ validateErrors
        ⟨⟨24000, 5/24000, "FLOAT", "WAV", 1⟩, [[1], [1], [1], [1], [1]]⟩
        ⟨"probe", 1, "a five-sample probe file"⟩ ↔
      (24000 : ℤ) ≠ settings.DEFAULT_SR) :=
  ⟨by norm_num,
    (validate_wav_collects_all_failures
      ⟨⟨24000, 5/24000, "FLOAT", "WAV", 1⟩, [[1], [1], [1], [1], [1]]⟩
      ⟨"probe", 1, "a five-sample probe file"⟩ (by norm_num)).2.2.1⟩

/-- C4 amended: the sample-rate check of `validate_wav` compares the file's
sample rate for an exact match against the globally configured
`settings.DEFAULT_SR` (48 000 Hz); the `spec` argument contributes nothing
to this check (the `AnalyzerOutput` schema has no sample-rate field). -/
theorem sample_rate_check_compares_default_sr (f : WavFile)
    (spec : AnalyzerOutput) :
    srMsg ∈ validateErrors f spec ↔
      f.info.samplerate ≠ settings.DEFAULT_SR := by
  simp only [validateErrors, List.mem_append, mem_srErrors_iff,
    mem_durationErrors_iff, mem_subtypeErrors_iff, mem_channelErrors_iff,
    mem_peakErrors_iff, mem_silenceErrors_iff]
  simp [srMsg, durMsg, subtypeMsg, channelMsg, peakMsg, silenceMsg,
    peakCheckErrorMsg, silenceCheckErrorMsg]

/-- C4 counterexample: a readable 24 kHz file validated against a target
whose (claim-side) sample rate is also 24 kHz.  The claim predicts no
sample-rate reason (file and target agree), but `validate_wav` reports a
sample-rate mismatch: the check compares against `settings.DEFAULT_SR`
(48 000), and the `AnalyzerOutput` spec object carries no sample-rate field
that could influence it. -/
theorem sample_rate_check_ignores_spec_rate :
    ¬ (srMsg ∈ validateErrors
        ⟨⟨24000, 5/24000, "FLOAT", "WAV", 1⟩, [[1], [1], [1], [1], [1]]⟩
        ⟨"probe", 1, "a five-sample probe file"⟩ ↔
      (24000 : ℤ) ≠ 24000) := by
  intro h
  have hmem : srMsg ∈ validateErrors
      ⟨⟨24000, 5/24000, "FLOAT", "WAV", 1⟩, [[1], [1], [1], [1], [1]]⟩
      ⟨"probe", 1, "a five-sample probe file"⟩ := by
    apply List.mem_append_left
    apply List.mem_append_left
    apply List.mem_append_left
    apply List.mem_append_left
    apply List.mem_append_left
    simp [srErrors, settings.DEFAULT_SR]
  exact (h.mp hmem) rfl

/-! ## Claims about the mastering chain (C3)

Facts about `npMaxAbs`, `normalize` and `limiter`, then propagation of the
all-zero property through every stage of `apply_mastering`, and finally the
two C3 theorems. -/

/-- A left fold by `max` is bounded iff the seed and every element are. -/
theorem foldl_max_le_iff {l : List ℝ} {a c : ℝ} :
    l.foldl max a ≤ c ↔ a ≤ c ∧ ∀ x ∈ l, x ≤ c := by
  induction l generalizing a with
  | nil => simp
  | cons b t ih =>
    simp only [List.foldl_cons, ih, max_le_iff, List.mem_cons]
    constructor
    · rintro ⟨⟨ha, hb⟩, ht⟩
      exact ⟨ha, fun x hx => hx.elim (fun hx => hx ▸ hb) (ht x)⟩
    · rintro ⟨ha, ht⟩
      exact ⟨⟨ha, ht b (Or.inl rfl)⟩, fun x hx => ht x (Or.inr hx)⟩

/-- The seed bounds a left fold by `max` from below. -/
theorem le_foldl_max {a : ℝ} : ∀ {l : List ℝ}, a ≤ l.foldl max a := by
  intro l
  induction l generalizing a with
  | nil => simp
  | cons b t ih => exact le_trans (le_max_left a b) ih

/-- Every element bounds a left fold by `max` from below. -/
theorem mem_le_foldl_max {x : ℝ} : ∀ {l : List ℝ} {a : ℝ}, x ∈ l →
    x ≤ l.foldl max a := by
  intro l
  induction l with
  | nil => intro a hx; cases hx
  | cons b t ih =>
    intro a hx
    rcases List.mem_cons.mp hx with rfl | hx
    · exact le_trans (le_max_right a x) le_foldl_max
    · exact ih hx

/-- `npMaxAbs` is non-negative. -/
theorem npMaxAbs_nonneg (y : List ℝ) : 0 ≤ npMaxAbs y := le_foldl_max

/-- Every element's absolute value is at most `npMaxAbs`. -/
theorem abs_le_npMaxAbs {y : List ℝ} {x : ℝ} (hx : x ∈ y) :
    |x| ≤ npMaxAbs y :=
  mem_le_foldl_max (List.mem_map_of_mem _ hx)

/-- `npMaxAbs` is zero iff the buffer is identically zero. -/
theorem npMaxAbs_eq_zero_iff {y : List ℝ} :
    npMaxAbs y = 0 ↔ ∀ x ∈ y, x = 0 := by
  constructor
  · intro h x hx
    have hb := abs_le_npMaxAbs hx
    rw [h] at hb
    exact abs_eq_zero.mp (le_antisymm hb (abs_nonneg x))
  · intro h
    refine le_antisymm ?_ (npMaxAbs_nonneg y)
    unfold npMaxAbs
    rw [foldl_max_le_iff]
    refine ⟨le_rfl, ?_⟩
    intro x hx
    rcases List.mem_map.mp hx with ⟨a, ha, rfl⟩
    rw [h a ha]
    simp

/-- Dividing the buffer by a positive constant divides `npMaxAbs`. -/
theorem foldl_max_map_div {p : ℝ} (hp : 0 < p) :
    ∀ (l : List ℝ) (a : ℝ),
      (l.map (· / p)).foldl max (a / p) = l.foldl max a / p := by
  intro l
  induction l with
  | nil => intro a; rfl
  | cons b t ih =>
    intro a
    simp only [List.map_cons, List.foldl_cons]
    rw [max_div_div_right hp.le a b]
    exact ih (max a b)

/-- `npMaxAbs` of a buffer divided by its positive peak. -/
theorem npMaxAbs_map_div {y : List ℝ} {p : ℝ} (hp : 0 < p) :
    npMaxAbs (y.map (· / p)) = npMaxAbs y / p := by
  unfold npMaxAbs
  rw [List.map_map]
  have h1 : ((fun x => |x|) ∘ fun x => x / p) = fun x => |x| / p := by
    funext x
    simp [abs_div, abs_of_pos hp]
  rw [h1]
  have h2 : (y.map fun x => |x| / p) = (y.map fun x => |x|).map (· / p) := by
    rw [List.map_map]
    rfl
  rw [h2, show (0 : ℝ) = 0 / p by rw [zero_div]]
  rw [foldl_max_map_div hp]
  rw [zero_div]

/-- `normalize` of the empty buffer raises `np.max`'s empty-reduction
`ValueError`. -/
theorem normalize_nil :
    normalize ([] : List ℝ) = Except.error (.valueError
      "zero-size array to reduction operation maximum which has no identity") :=
  rfl

/-- On the empty buffer, `apply_mastering` propagates the `ValueError` its
first `normalize` raises. -/
theorem apply_mastering_nil (sr : ℝ) :
    apply_mastering ([] : List ℝ) sr = Except.error (.valueError
      "zero-size array to reduction operation maximum which has no identity") :=
  rfl

/-- `normalize` of a non-empty identically-zero buffer returns that buffer. -/
theorem normalize_all_zero {y : List ℝ} (hne : y ≠ []) (h : ∀ x ∈ y, x = 0) :
    normalize y = Except.ok y := by
  simp only [normalize]
  rw [if_neg (by simpa [List.isEmpty_iff] using hne),
    if_pos (npMaxAbs_eq_zero_iff.mpr h)]

/-- `normalize` of a not-identically-zero buffer succeeds with peak
exactly `1`. -/
theorem normalize_peak_eq_one {y : List ℝ} (h : ¬ ∀ x ∈ y, x = 0) :
    ∃ out, normalize y = Except.ok out ∧ npMaxAbs out = 1 := by
  have hne : y ≠ [] := by rintro rfl; exact h (by simp)
  have hp : 0 < npMaxAbs y :=
    lt_of_le_of_ne (npMaxAbs_nonneg y)
      fun he => h (npMaxAbs_eq_zero_iff.mp he.symm)
  refine ⟨y.map (· / npMaxAbs y), ?_, ?_⟩
  · simp only [normalize]
    rw [if_neg (by simpa [List.isEmpty_iff] using hne), if_neg hp.ne']
  · rw [npMaxAbs_map_div hp, div_self hp.ne']

/-- `normalize` succeeds on every non-empty buffer; it preserves length and
the identically-zero property. -/
theorem normalize_ok_of_ne_nil {y : List ℝ} (hne : y ≠ []) :
    ∃ out, normalize y = Except.ok out ∧ out.length = y.length ∧
      ((∀ x ∈ y, x = 0) → ∀ x ∈ out, x = 0) := by
  simp only [normalize]
  rw [if_neg (by simpa [List.isEmpty_iff] using hne)]
  by_cases hp : npMaxAbs y = 0
  · rw [if_pos hp]
    exact ⟨y, rfl, rfl, fun h => h⟩
  · rw [if_neg hp]
    refine ⟨_, rfl, by simp, ?_⟩
    intro h
    exact absurd (npMaxAbs_eq_zero_iff.mpr h) hp

/-- Whatever buffer `normalize` succeeds with has peak at most `1`. -/
theorem npMaxAbs_normalize_le_one {y out : List ℝ}
    (h : normalize y = Except.ok out) : npMaxAbs out ≤ 1 := by
  by_cases hz : ∀ x ∈ y, x = 0
  · have hne : y ≠ [] := by
      rintro rfl
      simp [normalize] at h
    rw [normalize_all_zero hne hz] at h
    rw [← Except.ok.inj h, npMaxAbs_eq_zero_iff.mpr hz]
    norm_num
  · obtain ⟨out', hok, hpk⟩ := normalize_peak_eq_one hz
    rw [hok] at h
    rw [← Except.ok.inj h]
    exact le_of_eq hpk

/-- `limiter` maps zero samples to zero (for a non-negative limit). -/
theorem limiter_all_zero {y : List ℝ} {limit : ℝ} (hl : 0 ≤ limit)
    (h : ∀ x ∈ y, x = 0) : ∀ x ∈ limiter y limit, x = 0 := by
  intro x hx
  rcases List.mem_map.mp hx with ⟨a, ha, rfl⟩
  rw [h a ha, max_eq_right (by linarith), min_eq_right hl]

/-- `apply_saturation` maps zero samples to zero (`tanh 0 = 0`). -/
theorem apply_saturation_all_zero {y : List ℝ} (drive_db : ℝ)
    (h : ∀ x ∈ y, x = 0) : ∀ x ∈ apply_saturation y drive_db, x = 0 := by
  simp only [apply_saturation, List.map_map]
  intro x hx
  rcases List.mem_map.mp hx with ⟨a, ha, rfl⟩
  simp [h a ha, Real.tanh_zero]

/-- One SOS section maps an identically-zero block (from zero state) to an
identically-zero block, for arbitrary coefficients. -/
theorem sosSectionRun_all_zero (s : SOSection) :
    ∀ (l : List ℝ), (∀ x ∈ l, x = 0) → ∀ y ∈ sosSectionRun s 0 0 l, y = 0
  | [], _, y, hy => by simp [sosSectionRun] at hy
  | x :: t, h, y, hy => by
    have hx : x = 0 := h x (List.mem_cons_self x t)
    subst hx
    simp only [sosSectionRun, mul_zero, add_zero, zero_add, sub_zero,
      zero_sub, neg_zero] at hy
    rcases List.mem_cons.mp hy with rfl | hy
    · rfl
    · exact sosSectionRun_all_zero s t
        (fun a ha => h a (List.mem_cons_of_mem _ ha)) y hy

/-- A whole SOS cascade preserves the identically-zero block. -/
theorem sosfilt_all_zero (sos : List SOSection) :
    ∀ (l : List ℝ), (∀ x ∈ l, x = 0) → ∀ y ∈ sosfilt sos l, y = 0 := by
  unfold sosfilt
  induction sos with
  | nil => intro l h; simpa using h
  | cons s rest ih =>
    intro l h
    simp only [List.foldl_cons]
    exact ih _ (sosSectionRun_all_zero s l h)

/-- Pointwise products with an identically-zero left factor vanish. -/
theorem zipWith_mul_all_zero : ∀ {l m : List ℝ}, (∀ x ∈ l, x = 0) →
    ∀ y ∈ List.zipWith (· * ·) l m, y = 0 := by
  intro l
  induction l with
  | nil => intro m _ y hy; simp at hy
  | cons a t ih =>
    intro m h y hy
    cases m with
    | nil => simp at hy
    | cons b tm =>
      rcases List.mem_cons.mp hy with rfl | hy
      · rw [h a (List.mem_cons_self _ _)]
        exact zero_mul b
      · exact ih (fun x hx => h x (List.mem_cons_of_mem _ hx)) y hy

/-- Pointwise sums of identically-zero buffers vanish. -/
theorem zipWith_add_all_zero : ∀ {l m : List ℝ}, (∀ x ∈ l, x = 0) →
    (∀ x ∈ m, x = 0) → ∀ y ∈ List.zipWith (· + ·) l m, y = 0 := by
  intro l
  induction l with
  | nil => intro m _ _ y hy; simp at hy
  | cons a t ih =>
    intro m hl hm y hy
    cases m with
    | nil => simp at hy
    | cons b tm =>
      rcases List.mem_cons.mp hy with rfl | hy
      · rw [hl a (List.mem_cons_self _ _), hm b (List.mem_cons_self _ _)]
        exact add_zero 0
      · exact ih (fun x hx => hl x (List.mem_cons_of_mem _ hx))
          (fun x hx => hm x (List.mem_cons_of_mem _ hx)) y hy

/-- `np.sum(bands, axis=0)` of identically-zero bands is identically zero. -/
theorem npSumAxis0_all_zero :
    ∀ (bs : List (List ℝ)), (∀ b ∈ bs, ∀ x ∈ b, x = 0) →
      ∀ y ∈ npSumAxis0 bs, y = 0 := by
  have key : ∀ (bs : List (List ℝ)) (acc : List ℝ), (∀ x ∈ acc, x = 0) →
      (∀ b ∈ bs, ∀ x ∈ b, x = 0) →
      ∀ y ∈ bs.foldl (fun acc l => List.zipWith (· + ·) acc l) acc, y = 0 := by
    intro bs
    induction bs with
    | nil => intro acc hacc _ y hy; exact hacc y hy
    | cons b rest ih =>
      intro acc hacc hb y hy
      simp only [List.foldl_cons] at hy
      exact ih _ (zipWith_add_all_zero hacc (hb b (List.mem_cons_self _ _)))
        (fun c hc => hb c (List.mem_cons_of_mem _ hc)) y hy
  intro bs hb
  cases bs with
  | nil => intro y hy; simp [npSumAxis0] at hy
  | cons b rest =>
    simp only [npSumAxis0]
    exact key rest b (hb b (List.mem_cons_self _ _))
      fun c hc => hb c (List.mem_cons_of_mem _ hc)

/-- `apply_band_compression` preserves the identically-zero band: the
computed gains multiply zero samples. -/
theorem apply_band_compression_all_zero (y_band : List ℝ)
    (sr threshold_db ratio attack_ms release_ms : ℝ)
    (h : ∀ x ∈ y_band, x = 0) :
    ∀ x ∈ apply_band_compression y_band sr threshold_db ratio attack_ms
      release_ms, x = 0 := by
  simp only [apply_band_compression]
  split_ifs with hr
  · exact h
  all_goals exact zipWith_mul_all_zero h

/-- One SOS section emits exactly one output sample per input sample. -/
theorem length_sosSectionRun (s : SOSection) :
    ∀ (z1 z2 : ℝ) (l : List ℝ), (sosSectionRun s z1 z2 l).length = l.length
  | _, _, [] => rfl
  | z1, z2, x :: xs => by
    simp only [sosSectionRun, List.length_cons]
    rw [length_sosSectionRun s _ _ xs]

/-- An SOS cascade preserves the signal length. -/
theorem length_sosfilt (sos : List SOSection) (x : List ℝ) :
    (sosfilt sos x).length = x.length := by
  unfold sosfilt
  induction sos generalizing x with
  | nil => rfl
  | cons s rest ih =>
    simp only [List.foldl_cons]
    rw [ih (sosSectionRun s 0 0 x), length_sosSectionRun]

/-- The envelope follower emits one level per input sample. -/
theorem length_envelopeLoop (aa ar : ℝ) :
    ∀ (c : ℝ) (l : List ℝ), (envelopeLoop aa ar c l).length = l.length
  | _, [] => rfl
  | c, a :: rest => by
    simp only [envelopeLoop, List.length_cons]
    rw [length_envelopeLoop aa ar _ rest]

/-- Per-band compression preserves the band length. -/
theorem length_apply_band_compression (y_band : List ℝ)
    (sr threshold_db ratio attack_ms release_ms : ℝ) :
    (apply_band_compression y_band sr threshold_db ratio attack_ms
      release_ms).length = y_band.length := by
  simp only [apply_band_compression]
  split_ifs with hr hr1
  · rfl
  all_goals simp [List.length_zipWith, length_envelopeLoop]

/-- The band-summation fold keeps the common band length. -/
theorem foldl_zipWith_add_length {n : ℕ} :
    ∀ (bs : List (List ℝ)) (acc : List ℝ), acc.length = n →
      (∀ b ∈ bs, b.length = n) →
      (bs.foldl (fun acc l => List.zipWith (· + ·) acc l) acc).length = n := by
  intro bs
  induction bs with
  | nil => intro acc hacc _; exact hacc
  | cons b rest ih =>
    intro acc hacc hb
    simp only [List.foldl_cons]
    refine ih _ ?_ fun c hc => hb c (List.mem_cons_of_mem _ hc)
    rw [List.length_zipWith, hacc, hb b (List.mem_cons_self _ _), min_self]

/-- `np.sum(bands, axis=0)` of non-empty equal-length bands keeps their
common length. -/
theorem npSumAxis0_length {n : ℕ} : ∀ {bs : List (List ℝ)},
    (∀ b ∈ bs, b.length = n) → bs ≠ [] → (npSumAxis0 bs).length = n := by
  intro bs hb hne
  cases bs with
  | nil => exact absurd rfl hne
  | cons b rest =>
    simp only [npSumAxis0]
    exact foldl_zipWith_add_length rest b (hb b (List.mem_cons_self _ _))
      fun c hc => hb c (List.mem_cons_of_mem _ hc)

/-- The multiband call made by `apply_mastering` always succeeds (its four
parameter lists match the 3 crossovers + 1), preserves the buffer length,
and maps an identically-zero input to an identically-zero output, for
whatever coefficients `butter` returns. -/
theorem apply_multiband_compression_master_ok (y : List ℝ) (sr : ℝ) :
    ∃ z, apply_multiband_compression y sr [150, 800, 4000]
        [-24, -20, -18, -15] [2, 5/2, 3, 7/2] [10, 8, 5, 3]
        [150, 120, 100, 80] = Except.ok z ∧ z.length = y.length ∧
      ((∀ x ∈ y, x = 0) → ∀ x ∈ z, x = 0) := by
  simp only [apply_multiband_compression]
  rw [if_neg (not_not_intro (by simp))]
  refine ⟨_, rfl, ?_, ?_⟩
  · refine npSumAxis0_length ?_ (by simp)
    intro b hb
    rcases List.mem_cons.mp hb with rfl | hb
    · rw [length_apply_band_compression, length_sosfilt]
    · rcases List.mem_append.mp hb with hb | hb
      · rcases List.mem_map.mp hb with ⟨i, -, rfl⟩
        rw [length_apply_band_compression, length_sosfilt]
      · rcases List.mem_singleton.mp hb with rfl
        rw [length_apply_band_compression, length_sosfilt]
  intro hy
  apply npSumAxis0_all_zero
  intro b hb
  rcases List.mem_cons.mp hb with rfl | hb
  · exact apply_band_compression_all_zero _ _ _ _ _ _
      (sosfilt_all_zero _ _ hy)
  · rcases List.mem_append.mp hb with hb | hb
    · rcases List.mem_map.mp hb with ⟨i, -, rfl⟩
      exact apply_band_compression_all_zero _ _ _ _ _ _
        (sosfilt_all_zero _ _ hy)
    · rcases List.mem_singleton.mp hb with rfl
      exact apply_band_compression_all_zero _ _ _ _ _ _
        (sosfilt_all_zero _ _ hy)

/-- On a non-empty load, `apply_mastering` reaches the final stage: it
returns `normalize (limiter z 0.98)` for a non-empty post-compression
signal `z`, and `z` is identically zero whenever the input is. -/
theorem apply_mastering_shape {y0 : List ℝ} (hne : y0 ≠ []) (sr : ℝ) :
    ∃ z, z ≠ [] ∧
      apply_mastering y0 sr = normalize (limiter z (98/100)) ∧
      ((∀ x ∈ y0, x = 0) → ∀ x ∈ z, x = 0) := by
  obtain ⟨y1, h1, hlen1, hz1⟩ := normalize_ok_of_ne_nil hne
  obtain ⟨z, hz, hlenz, hzero⟩ := apply_multiband_compression_master_ok
    (apply_saturation y1 6) sr
  refine ⟨z, ?_, ?_, ?_⟩
  · intro hznil
    apply hne
    have hl : z.length = y0.length := by
      rw [hlenz]
      simp [apply_saturation, hlen1]
    rw [hznil] at hl
    exact List.eq_nil_of_length_eq_zero hl.symm
  · simp only [apply_mastering, h1, hz]
  · intro hy
    exact hzero (apply_saturation_all_zero 6 (hz1 hy))

/-- C3 counterexample: at the concrete non-zero finite input `[1]`, the
claim fails whatever coefficients scipy's Butterworth design returns: the
final `normalize` comes AFTER the `0.98` limiter, so either the
post-compression signal is non-zero — and the written buffer then has peak
exactly `1 > 0.98` — or it is identically zero and the written buffer is
identically zero for a non-zero input. -/
theorem apply_mastering_final_normalize_defeats_ceiling :
    (∃ x ∈ ([1] : List ℝ), x ≠ 0) ∧
    ∃ out, apply_mastering [1] 48000 = Except.ok out ∧
      ¬ (npMaxAbs out ≤ 98/100 ∧ ∃ x ∈ out, x ≠ 0) := by
  refine ⟨⟨1, by simp, one_ne_zero⟩, ?_⟩
  obtain ⟨z, hzne, hshape, -⟩ :=
    apply_mastering_shape (by simp : ([1] : List ℝ) ≠ []) 48000
  by_cases hall : ∀ x ∈ limiter z (98/100), x = 0
  · have hlne : limiter z (98/100) ≠ [] := by
      simpa [limiter] using hzne
    refine ⟨limiter z (98/100), ?_, ?_⟩
    · rw [hshape, normalize_all_zero hlne hall]
    · rintro ⟨-, x, hx, hxne⟩
      exact hxne (hall x hx)
  · obtain ⟨out, hok, hpk⟩ := normalize_peak_eq_one hall
    refine ⟨out, by rw [hshape, hok], ?_⟩
    rintro ⟨hle, -⟩
    rw [hpk] at hle
    norm_num at hle

/-- C3 amended: on the empty loaded buffer `apply_mastering` raises (its
first `normalize` hits `np.max` of an empty array); on every non-empty
loaded buffer it writes a buffer of peak at most `1.0` (the final
normalize makes any non-zero limited signal peak at exactly `1.0`, above
the `0.98` limiter ceiling the claim states), and an identically-zero
input yields an identically-zero output. -/
theorem apply_mastering_bounded_and_zero_preserving (y0 : List ℝ) (sr : ℝ) :
    (y0 = [] → ∃ e, apply_mastering y0 sr = Except.error e) ∧
    (y0 ≠ [] → ∃ out, apply_mastering y0 sr = Except.ok out ∧
      npMaxAbs out ≤ 1 ∧ ((∀ x ∈ y0, x = 0) → ∀ x ∈ out, x = 0)) := by
  constructor
  · rintro rfl
    exact ⟨_, apply_mastering_nil sr⟩
  · intro hne
    obtain ⟨z, hzne, hshape, hzero⟩ := apply_mastering_shape hne sr
    have hlne : limiter z (98/100) ≠ [] := by
      simpa [limiter] using hzne
    obtain ⟨out, hok, hlen, hz0⟩ := normalize_ok_of_ne_nil hlne
    refine ⟨out, by rw [hshape, hok], npMaxAbs_normalize_le_one hok, ?_⟩
    intro hy
    exact hz0 (limiter_all_zero (by norm_num) (hzero hy))

/-- Witness for `apply_mastering_bounded_and_zero_preserving`: the empty
buffer raises, and the identically-zero one-sample buffer yields an
identically-zero bounded output. -/
theorem apply_mastering_bounded_and_zero_preserving_witness :
    (∃ e, apply_mastering ([] : List ℝ) 48000 = Except.error e) ∧
    ∃ out, apply_mastering [(0 : ℝ)] 48000 = Except.ok out ∧
      npMaxAbs out ≤ 1 ∧ ∀ x ∈ out, x = 0 := by
  constructor
  · exact (apply_mastering_bounded_and_zero_preserving [] 48000).1 rfl
  · obtain ⟨out, h1, h2, h3⟩ :=
      (apply_mastering_bounded_and_zero_preserving [0] 48000).2 (by simp)
    exact ⟨out, h1, h2, h3 (by simp)⟩

/-! ## Equivalence of the two MFN block kernels

Supporting development for C1: the NumPy and Numba kernels compute the same
block function once the graph data is laid out for each of them the way the
wrapper intends (node arrays in node order, connection index arrays through
`node_id_to_idx`).  This is the equivalence property the spec demands of
the two kernels; in the shipped code it is unreachable because
`apply_feedback_network` crashes first (see C1). -/

/-- The Numba clamp loop agrees with `np.clip(·, -1, 1)`. -/
theorem numbaClip1_eq_clip (x : ℝ) : numbaClip1 x = min 1 (max (-1) x) := by
  unfold numbaClip1
  split_ifs with h1 h2
  · rw [max_eq_left h1.le, min_eq_right (by norm_num)]
  · rw [max_eq_right (by linarith), min_eq_left h2.le]
  · rw [max_eq_right (by linarith), min_eq_right (by linarith)]

/-- The two chaos/saturation stages agree. -/
theorem chaosSaturateNumba_eq (c : ℝ) (s : List ℝ) :
    chaosSaturateNumba c s = chaosSaturate c s := by
  unfold chaosSaturateNumba chaosSaturate
  rw [show numbaClip1 = fun x => min 1 (max (-1) x) from
    funext numbaClip1_eq_clip]

/-- The Numba sum-of-squares loop computes the sum of squares. -/
theorem foldl_add_sq_eq_sum (l : List ℝ) :
    l.foldl (fun s x => s + x * x) 0 = (l.map fun x => x * x).sum := by
  have key : ∀ (a : ℝ), l.foldl (fun s x => s + x * x) a =
      a + (l.map fun x => x * x).sum := by
    induction l with
    | nil => intro a; simp
    | cons x t ih =>
      intro a
      simp only [List.foldl_cons, List.map_cons, List.sum_cons, ih]
      ring
  simpa using key 0

/-- Indexing a mapped list inside its range. -/
theorem getD_map_of_lt {α γ : Type} (f : α → γ) :
    ∀ {l : List α} {i : ℕ}, i < l.length → ∀ (d : γ) (e : α),
      (l.map f).getD i d = f (l.getD i e) := by
  intro l
  induction l with
  | nil => intro i h; simp at h
  | cons a t ih =>
    intro i h d e
    cases i with
    | zero => rfl
    | succ j =>
      simp only [List.map_cons, List.getD_cons_succ]
      exact ih (by simpa using h) d e

/-- In-range `getD` values are members. -/
theorem getD_mem_of_lt {α : Type} :
    ∀ {l : List α} {i : ℕ}, i < l.length → ∀ (d : α), l.getD i d ∈ l := by
  intro l
  induction l with
  | nil => intro i h; simp at h
  | cons a t ih =>
    intro i h d
    cases i with
    | zero => exact List.mem_cons_self _ _
    | succ j =>
      simp only [List.getD_cons_succ]
      exact List.mem_cons_of_mem _ (ih (by simpa using h) d)

/-- A fold over `range l.length` that indexes `l` is a fold over `l`. -/
theorem foldl_range_getD {α β : Type} (g : β → α → β) (e : α) :
    ∀ (l : List α) (b : β),
      (List.range l.length).foldl (fun acc i => g acc (l.getD i e)) b =
        l.foldl g b := by
  intro l
  induction l with
  | nil => intro b; rfl
  | cons a t ih =>
    intro b
    rw [List.length_cons, List.range_succ_eq_map, List.foldl_cons,
      List.foldl_map]
    simp only [List.getD_cons_zero, List.getD_cons_succ]
    exact ih (g b a)

/-- Folds over `range n` of functions that agree below `n` agree. -/
theorem foldl_range_congr {β : Type} {f g : β → ℕ → β} :
    ∀ (n : ℕ), (∀ (acc : β) (i : ℕ), i < n → f acc i = g acc i) →
      ∀ b, (List.range n).foldl f b = (List.range n).foldl g b := by
  intro n
  induction n with
  | zero => intro _ b; rfl
  | succ m ih =>
    intro h b
    rw [List.range_succ, List.foldl_append, List.foldl_append]
    rw [ih (fun acc i hi => h acc i (Nat.lt_succ_of_lt hi)) b]
    simp only [List.foldl_cons, List.foldl_nil]
    rw [h _ m (Nat.lt_succ_self m)]

/-- Looking a node id up in the wrapper's arrays (`node_gains_arr`,
`node_delays_arr`, index via `node_id_to_idx ∘ indexOf`) agrees with
looking the node up in `node_defs_map` (first match on either side). -/
theorem node_lookup_eq (sid : String) (e : MFNNode) :
    ∀ (nodes : List MFNNode), sid ∈ nodes.map (·.id) →
      (dictGet (nodes.map fun n => (n.id, n)) sid e).id = sid ∧
      (nodes.map fun n => (n.gain : ℝ)).getD
          ((nodes.map (·.id)).indexOf sid) 0 =
        ((dictGet (nodes.map fun n => (n.id, n)) sid e).gain : ℝ) ∧
      (nodes.map (·.delay_samples)).getD
          ((nodes.map (·.id)).indexOf sid) 0 =
        (dictGet (nodes.map fun n => (n.id, n)) sid e).delay_samples ∧
      (nodes.map (·.id)).getD ((nodes.map (·.id)).indexOf sid) "" = sid := by
  intro nodes
  induction nodes with
  | nil => intro h; simp at h
  | cons a t ih =>
    intro h
    by_cases ha : a.id = sid
    · subst ha
      simp [dictGet, List.indexOf_cons_self]
    · have hmem : sid ∈ t.map (·.id) := by
        rcases List.mem_cons.mp h with h' | h'
        · exact absurd h'.symm ha
        · exact h'
      have hfind : (a.id == sid) = false := by
        simpa using ha
      have hidx : (a.id :: t.map (·.id)).indexOf sid =
          (t.map (·.id)).indexOf sid + 1 := by
        simp [List.indexOf_cons, hfind]
      obtain ⟨ih1, ih2, ih3, ih4⟩ := ih hmem
      refine ⟨?_, ?_, ?_, ?_⟩
      · simpa [dictGet, List.find?, hfind] using ih1
      · simpa [hidx, List.getD_cons_succ, dictGet, List.find?, hfind]
          using ih2
      · simpa [hidx, List.getD_cons_succ, dictGet, List.find?, hfind]
          using ih3
      · simpa [hidx, List.getD_cons_succ] using ih4

/-- For a connection referencing existing node ids, the Numba connection
step addressed through the wrapper's index arrays equals the NumPy
connection step on the connection object itself. -/
theorem numbaConnStep_eq_numpyConnStep (nodes : List MFNNode)
    (conns : List MFNConnection)
    (delay_lines_nodes : List (String × List ℝ))
    (current_write_pos_nodes : List (String × ℤ)) (block_size : ℕ)
    (hsrc : ∀ c ∈ conns, c.source_id ∈ nodes.map (·.id))
    (htgt : ∀ c ∈ conns, c.target_id ∈ nodes.map (·.id))
    (acc : List (String × List ℝ)) (i : ℕ) (hi : i < conns.length) :
    numbaConnStep (nodes.map (·.id)) (nodes.map fun n => (n.gain : ℝ))
      (nodes.map (·.delay_samples))
      (conns.map fun c => (nodes.map (·.id)).indexOf c.source_id)
      (conns.map fun c => (nodes.map (·.id)).indexOf c.target_id)
      (conns.map fun c => (c.gain : ℝ))
      delay_lines_nodes current_write_pos_nodes block_size acc i =
    numpyConnStep (nodes.map fun n => (n.id, n)) delay_lines_nodes
      current_write_pos_nodes block_size acc
      (conns.getD i ⟨"", "", 0, 0⟩) := by
  have hcm : conns.getD i ⟨"", "", 0, 0⟩ ∈ conns := getD_mem_of_lt hi _
  obtain ⟨hsid, hsg, hsd, hs4⟩ :=
    node_lookup_eq (conns.getD i ⟨"", "", 0, 0⟩).source_id ⟨"", 0, 0⟩ nodes
      (hsrc _ hcm)
  obtain ⟨-, -, -, ht4⟩ :=
    node_lookup_eq (conns.getD i ⟨"", "", 0, 0⟩).target_id ⟨"", 0, 0⟩ nodes
      (htgt _ hcm)
  simp only [numbaConnStep, numpyConnStep]
  rw [getD_map_of_lt (fun c => (nodes.map (·.id)).indexOf c.source_id) hi 0
      ⟨"", "", 0, 0⟩,
    getD_map_of_lt (fun c => (nodes.map (·.id)).indexOf c.target_id) hi 0
      ⟨"", "", 0, 0⟩,
    getD_map_of_lt (fun c => ((c.gain : ℚ) : ℝ)) hi 0 ⟨"", "", 0, 0⟩,
    hs4, ht4, hsg, hsd, hsid]

/-- The Numba node step addressed through the index arrays equals the NumPy
node step on the `(id, node)` pair. -/
theorem numbaNodeStep_eq_numpyNodeStep (nodes : List MFNNode) (chaos : ℝ)
    (accum : List (String × List ℝ)) (block_size : ℕ)
    (st : List ℝ × List (String × List ℝ) × List (String × ℤ)) (i : ℕ)
    (hi : i < nodes.length) :
    numbaNodeStep chaos accum (nodes.map (·.id))
      (nodes.map fun n => (n.gain : ℝ)) (nodes.map (·.delay_samples))
      block_size st i =
    numpyNodeStep chaos accum block_size st
      ((nodes.map fun n => (n.id, n)).getD i ("", ⟨"", 0, 0⟩)) := by
  simp only [numbaNodeStep, numpyNodeStep]
  rw [getD_map_of_lt (fun n => (n.id, n)) hi ("", ⟨"", 0, 0⟩) ⟨"", 0, 0⟩,
    getD_map_of_lt (fun n => MFNNode.id n) hi "" ⟨"", 0, 0⟩,
    getD_map_of_lt (fun n => ((n.gain : ℚ) : ℝ)) hi 0 ⟨"", 0, 0⟩,
    getD_map_of_lt (fun n => MFNNode.delay_samples n) hi 0 ⟨"", 0, 0⟩,
    chaosSaturateNumba_eq]

/-- C1 supporting theorem — the equivalence property the spec demands of
the two kernels, proved at the kernel boundary: for every graph whose
connections reference existing, unique node ids and carry no
connection-specific delay, and for every input block and ring-buffer
state, `_process_block_numba` — fed the node/connection arrays exactly as
the wrapper lays them out (`[node.id for node in nodes]`, gains, delays,
`node_id_to_idx` indices) — computes the very same output block, RMS and
updated state as `_process_block_numpy`.  In the shipped code this
equivalence is unobservable because `apply_feedback_network` raises before
reaching either kernel. -/
theorem processBlockNumpy_eq_numba (current_input_block : List ℝ)
    (graph : MFNGraph) (delay_lines_nodes : List (String × List ℝ))
    (current_write_pos_nodes : List (String × ℤ)) (block_size : ℕ)
    (hnodup : (graph.nodes.map (·.id)).Nodup)
    (hconnz : ∀ c ∈ graph.connections, c.delay_samples = 0)
    (hsrc : ∀ c ∈ graph.connections, c.source_id ∈ graph.nodes.map (·.id))
    (htgt : ∀ c ∈ graph.connections, c.target_id ∈ graph.nodes.map (·.id)) :
    processBlockNumpy current_input_block graph
        (graph.nodes.map fun n => (n.id, n)) delay_lines_nodes
        current_write_pos_nodes block_size =
      Except.ok (processBlockNumba current_input_block
        (graph.input_gain : ℝ) (graph.output_gain : ℝ)
        (graph.chaos_level : ℝ) (graph.nodes.map (·.id))
        (graph.nodes.map fun n => (n.gain : ℝ))
        (graph.nodes.map (·.delay_samples))
        (graph.connections.map fun c =>
          (graph.nodes.map (·.id)).indexOf c.source_id)
        (graph.connections.map fun c =>
          (graph.nodes.map (·.id)).indexOf c.target_id)
        (graph.connections.map fun c => (c.gain : ℝ))
        (graph.connections.map (·.delay_samples))
        delay_lines_nodes current_write_pos_nodes block_size) := by
  have hall : ¬¬(graph.connections.all (fun c => c.delay_samples == 0) = true) := by
    rw [not_not, List.all_eq_true]
    intro c hc
    exact beq_iff_eq.mpr (hconnz c hc)
  have hacc0 : (graph.nodes.map (·.id)).map
      (fun node_id => (node_id, List.replicate block_size (0 : ℝ))) =
      (graph.nodes.map fun n => (n.id, n)).map
        (fun p => (p.1, List.replicate block_size (0 : ℝ))) := by
    simp [List.map_map, Function.comp]
  have hconnfold : ∀ acc : List (String × List ℝ),
      (List.range (graph.connections.map fun c =>
          (graph.nodes.map (·.id)).indexOf c.source_id).length).foldl
        (numbaConnStep (graph.nodes.map (·.id))
          (graph.nodes.map fun n => (n.gain : ℝ))
          (graph.nodes.map (·.delay_samples))
          (graph.connections.map fun c =>
            (graph.nodes.map (·.id)).indexOf c.source_id)
          (graph.connections.map fun c =>
            (graph.nodes.map (·.id)).indexOf c.target_id)
          (graph.connections.map fun c => (c.gain : ℝ))
          delay_lines_nodes current_write_pos_nodes block_size) acc =
      graph.connections.foldl
        (numpyConnStep (graph.nodes.map fun n => (n.id, n))
          delay_lines_nodes current_write_pos_nodes block_size) acc := by
    intro acc
    rw [List.length_map,
      ← foldl_range_getD (numpyConnStep (graph.nodes.map fun n => (n.id, n))
        delay_lines_nodes current_write_pos_nodes block_size) ⟨"", "", 0, 0⟩
        graph.connections acc]
    exact foldl_range_congr _ (fun acc2 i hi =>
      numbaConnStep_eq_numpyConnStep graph.nodes graph.connections
        delay_lines_nodes current_write_pos_nodes block_size hsrc htgt
        acc2 i hi) acc
  have hnodefold : ∀ (accum : List (String × List ℝ))
      (init : List ℝ × List (String × List ℝ) × List (String × ℤ)),
      (List.range (graph.nodes.map (·.id)).length).foldl
        (numbaNodeStep (graph.chaos_level : ℝ) accum
          (graph.nodes.map (·.id)) (graph.nodes.map fun n => (n.gain : ℝ))
          (graph.nodes.map (·.delay_samples)) block_size) init =
      (graph.nodes.map fun n => (n.id, n)).foldl
        (numpyNodeStep (graph.chaos_level : ℝ) accum block_size) init := by
    intro accum init
    rw [← foldl_range_getD
      (numpyNodeStep (graph.chaos_level : ℝ) accum block_size)
      ("", ⟨"", 0, 0⟩) (graph.nodes.map fun n => (n.id, n)) init]
    simp only [List.length_map]
    exact foldl_range_congr _ (fun st i hi =>
      numbaNodeStep_eq_numpyNodeStep graph.nodes (graph.chaos_level : ℝ)
        accum block_size st i hi) init
  simp only [processBlockNumpy, processBlockNumba]
  rw [if_neg hall, hacc0, hconnfold, hnodefold,
    show numbaClip1 = fun x : ℝ => min 1 (max (-1) x) from
      funext numbaClip1_eq_clip,
    foldl_add_sq_eq_sum]

end Phonosyne
